import Mathlib

/-!
Verification of iptb, the IPFS testbed orchestrator (`main.go`).

A shallow embedding of the testbed lifecycle code: address derivation, the two
bootstrap topologies, `IpfsInit`, `IpfsKill`, `IpfsStart` and the two readiness
probes, followed by theorems about them.

Conventions of the embedding.

* Go `int` is a 64-bit two's-complement integer: it is an `Int` and every
  addition of the source goes through `addInt`, which wraps modulo `2^64`.
* Go `string` is `String`; `fmt.Sprintf("%d")` is `toString` on `Int` and
  `strings.Replace(s, old, new, -1)` is `stringsReplace`, written from the
  documented behaviour of the library (leftmost non-overlapping occurrences).
* Go `error` values are the inductive `GoErr`; a call that can also crash with a
  run-time panic, or never return, yields an `Outcome`.
* The filesystem below the testbed root is a `Testbed`: for every node index the
  contents of the directory `IpfsDirN i`, when that directory exists. A node
  directory holds the configuration that `serial.Load` returns for its `config`
  file and the text of `daemon.pid`; a configuration written with
  `serial.WriteConfigFile` is the one a later `serial.Load` returns. `os.Stat`
  reports a directory as missing exactly when it is absent.
* Everything the program asks of the outside world (system calls, the `ipfs`
  binary, the HTTP API of a daemon, the operator at the prompt) is a field of
  `Env`, indexed by the node for which the call is made.
* Loops of the source that count `i` from a start value up to a bound are
  recursive functions with the number of remaining iterations as fuel.
* The goroutines of `IpfsInit` each work on the directory of one node and are
  joined before the function goes on; they are run one after the other in an
  order chosen by the environment.
-/

namespace Iptb

/-! ## Machine integers and strings -/

/-- Wrap an integer into the range of a Go `int` (64 bit, two's complement). -/
def wrapInt (x : Int) : Int :=
  (x + 9223372036854775808) % 18446744073709551616 - 9223372036854775808

/-- Go `a + b` on `int`. -/
def addInt (a b : Int) : Int := wrapInt (a + b)

/-- Whether an integer is a value of the Go type `int`. -/
def isGoInt (x : Int) : Prop := -9223372036854775808 ≤ x ∧ x ≤ 9223372036854775807

instance (x : Int) : Decidable (isGoInt x) := by unfold isGoInt; exact inferInstance

/-- Go `fmt.Sprintf("%d", x)` / `fmt.Sprint(x)` for an `int`. -/
def fmtInt (x : Int) : String := toString x

/-- Scanner of `strings.Replace(s, old, new, -1)` for a non-empty `old`: leftmost,
non-overlapping occurrences of `old` are replaced. The counter is the number of
characters of the current occurrence still to be skipped. -/
def replaceScan (old new : List Char) : List Char → Nat → List Char
  | [], _ => []
  | _ :: cs, skip + 1 => replaceScan old new cs skip
  | c :: cs, 0 =>
    if old.isPrefixOf (c :: cs) then new ++ replaceScan old new cs (old.length - 1)
    else c :: replaceScan old new cs 0

/-- Go `strings.Replace(s, old, new, -1)` for a non-empty `old`. -/
def stringsReplace (s old new : String) : String :=
  String.mk (replaceScan old.data new.data s.data 0)

/-- Whether `old` occurs in the character list at some position. -/
def occursIn (old : List Char) : List Char → Bool
  | [] => old.isPrefixOf []
  | c :: cs => old.isPrefixOf (c :: cs) || occursIn old cs

/-! ## Errors and outcomes -/

/-- The `error` values the program handles. -/
inductive GoErr where
  /-- an error returned by the operating system or by a library -/
  | os (msg : String)
  /-- the error `fmt.Errorf("unrecognized bootstrapping option: %s", ...)` -/
  | unrecognizedBootstrap (opt : String)
  /-- the error `fmt.Errorf("liveness check failed: %s", err)` -/
  | livenessDecode (msg : String)
  /-- the error `liveness check failed: ID field not present in output` -/
  | idFieldMissing
  /-- the error `liveness check failed: unexpected peer at endpoint` -/
  | unexpectedPeer
  /-- the error `node at %s failed to come online in given time period` -/
  | apiTimeout (addr : String)
  /-- the error `node at %s failed to bootstrap in given time period` -/
  | swarmTimeout (addr : String)
  deriving DecidableEq

/-- How a call ends: it returns `nil`, returns an error, crashes with a run-time
panic, or never returns. -/
inductive Outcome where
  | ok
  | error (e : GoErr)
  | panic (why : String)
  | hang
  deriving DecidableEq

/-- The two errors of `waitOnAPI` that report a wrong identity at the endpoint. -/
def GoErr.isIdentityMismatch : GoErr → Bool
  | .idFieldMissing => true
  | .unexpectedPeer => true
  | _ => false

/-! ## Configuration of a node (the fields of `config.Config` the program uses) -/

structure Identity where
  PeerID : String
  deriving DecidableEq

structure Addresses where
  Swarm : List String
  API : String
  Gateway : String
  deriving DecidableEq

structure MDNS where
  Enabled : Bool
  deriving DecidableEq

structure Discovery where
  MDNS : MDNS
  deriving DecidableEq

/-- The node configuration; `Other` stands for the fields the program never touches. -/
structure Config where
  Identity : Identity
  Addresses : Addresses
  Discovery : Discovery
  Bootstrap : List String
  Other : String
  deriving DecidableEq

/-- Contents of a node directory: the configuration `serial.Load` would return
for its `config` file (absent when loading fails) and the text of `daemon.pid`. -/
structure NodeDir where
  config : Option Config
  pid : Option String
  deriving DecidableEq

/-- The testbed root: for every index, the node directory if it exists. -/
structure Testbed where
  node : Nat → Option NodeDir

/-- The empty testbed root (also the state after `os.RemoveAll(TestBedDir())`). -/
def Testbed.empty : Testbed := ⟨fun _ => none⟩

/-- Replace the directory entry of node `i`. -/
def Testbed.set (fs : Testbed) (i : Nat) (d : Option NodeDir) : Testbed :=
  ⟨fun j => if j = i then d else fs.node j⟩

/-! ## JSON documents and HTTP polls -/

/-- A decoded JSON value (`interface{}` after `json.Decode`). -/
inductive JsonVal where
  | null
  | bool (b : Bool)
  | num (lit : String)
  | str (s : String)
  | arr (xs : List JsonVal)
  | obj (kvs : List (String × JsonVal))

/-- The result of `json.NewDecoder(resp.Body).Decode(&out)` into a
`map[string]interface{}`: an error text or the decoded map. -/
abbrev Decoded := Except String (String → Option JsonVal)

/-- The result of one `http.Get`: `err != nil`, or a response with its decoded body. -/
inductive HttpResult where
  | failed (msg : String)
  | response (body : Decoded)

/-- The result of `manet.DialArgs(ma.StringCast(s))`. -/
inductive DialResult where
  | addr (a : String)
  | failed (e : GoErr)
  | panic (why : String)

/-! ## The environment -/

/-- Everything the program asks of the outside world. A field of type
`Option GoErr` is the error of the call (`none`: the call succeeds). -/
structure Env where
  /-- the values the variable `s` of `YesNoPrompt` holds after successive `Scanf` calls -/
  answers : List String
  /-- Go `os.RemoveAll(TestBedDir())` -/
  removeAllErr : Option GoErr
  /-- what a failed `os.RemoveAll` leaves behind -/
  removeAllLeaves : Testbed → Testbed
  /-- the order in which the goroutines of `IpfsInit` run -/
  schedule : List Nat → List Nat
  /-- Go `os.MkdirAll(dir, 0777)` for node `i` -/
  mkdirErr : Nat → Option GoErr
  /-- effect of the command `ipfs init -b=1024` on the directory of node `i` -/
  ipfsInit : Nat → NodeDir → NodeDir
  /-- Go `serial.WriteConfigFile` for node `i` -/
  writeCfgErr : Nat → Option GoErr
  /-- Go `strconv.Atoi` -/
  atoi : String → Except GoErr Int
  /-- Go `os.FindProcess` for node `i` -/
  findProcessErr : Nat → Option GoErr
  /-- Go `p.Kill()` for node `i` -/
  killErr : Nat → Option GoErr
  /-- Go `os.Remove` of the `daemon.pid` of node `i` -/
  removePidErr : Nat → Option GoErr
  /-- Go `os.Create` of `daemon.stdout` of node `i` -/
  createStdoutErr : Nat → Option GoErr
  /-- Go `os.Create` of `daemon.stderr` of node `i` -/
  createStderrErr : Nat → Option GoErr
  /-- Go `cmd.Start()` for node `i`: an error, or the pid of the new process -/
  startCmd : Nat → Except GoErr Int
  /-- Go `ioutil.WriteFile` of `daemon.pid` of node `i` -/
  writePidErr : Nat → Option GoErr
  /-- Go `manet.DialArgs(ma.StringCast(s))` -/
  dialArgs : String → DialResult
  /-- Go `http.Get(url)`: node for which the probe runs, url, number of the poll -/
  httpGet : Nat → String → Nat → HttpResult

/-! ## `GetNumNodes` -/

/-- The loop of `GetNumNodes`: `left` iterations remain, `i` is the loop variable. -/
def getNumNodesLoop (fs : Testbed) : Nat → Nat → Option Nat
  | 0, _ => none
  | left + 1, i =>
    match fs.node i with
    | none => some i
    | some _ => getNumNodesLoop fs left (i + 1)

/-- The function `GetNumNodes`: the first index below 2000 whose directory does not exist;
`none` is the `panic("i dont know whats going on")`. -/
def GetNumNodes (fs : Testbed) : Option Nat := getNumNodesLoop fs 2000 0

/-! ## `initCfg` and the address formulas -/

structure initCfg where
  Count : Int
  Force : Bool
  Bootstrap : String
  PortStart : Int
  Mdns : Bool
  deriving DecidableEq

/-- The port in `swarmAddrForPeer`: `c.PortStart+i`. -/
def initCfg.swarmPortForPeer (c : initCfg) (i : Nat) : Int := addInt c.PortStart i

/-- The port in `apiAddrForPeer`: `c.PortStart+1000+i`. -/
def initCfg.apiPortForPeer (c : initCfg) (i : Nat) : Int := addInt (addInt c.PortStart 1000) i

/-- Go `fmt.Sprintf("/ip4/0.0.0.0/tcp/%d", c.PortStart+i)` -/
def initCfg.swarmAddrForPeer (c : initCfg) (i : Nat) : String :=
  "/ip4/0.0.0.0/tcp/" ++ fmtInt (c.swarmPortForPeer i)

/-- Go `fmt.Sprintf("/ip4/127.0.0.1/tcp/%d", c.PortStart+1000+i)` -/
def initCfg.apiAddrForPeer (c : initCfg) (i : Nat) : String :=
  "/ip4/127.0.0.1/tcp/" ++ fmtInt (c.apiPortForPeer i)

/-! ## Topology: `starBootstrap` and `clearBootstrapping` -/

/-- Go `serial.Load(path.Join(IpfsDirN(i), "config"))` -/
def loadConfig (fs : Testbed) (i : Nat) : Except GoErr Config :=
  match fs.node i with
  | some d =>
    match d.config with
    | some c => .ok c
    | none => .error (.os ("cannot load config of node " ++ fmtInt i))
  | none => .error (.os ("cannot load config of node " ++ fmtInt i))

/-- Go `serial.WriteConfigFile(cfgpath, cfg)` for node `i`; a failed write leaves the
stored configuration as it was. -/
def writeConfigFile (env : Env) (fs : Testbed) (i : Nat) (cfg : Config) :
    Testbed × Option GoErr :=
  match env.writeCfgErr i with
  | some e => (fs, some e)
  | none =>
    match fs.node i with
    | some d => (fs.set i (some { d with config := some cfg }), none)
    | none => (fs, some (.os ("cannot write config of node " ++ fmtInt i)))

/-- The bootstrap address built in the loop of `starBootstrap`. -/
def bootstrapAddr (bcfg : Config) : String :=
  stringsReplace (bcfg.Addresses.Swarm.headD "" ++ "/ipfs/" ++ bcfg.Identity.PeerID)
    "0.0.0.0" "127.0.0.1"

/-- The configuration node 0 gets in `starBootstrap`. -/
def starHubConfig (icfg : initCfg) (bcfg : Config) : Config :=
  { bcfg with
    Bootstrap := []
    Addresses := { Swarm := [icfg.swarmAddrForPeer 0], API := icfg.apiAddrForPeer 0,
                   Gateway := "" }
    Discovery := { MDNS := { Enabled := icfg.Mdns } } }

/-- The configuration node `i >= 1` gets in `starBootstrap`. -/
def starSpokeConfig (icfg : initCfg) (bcfg : Config) (i : Nat) (cfg : Config) : Config :=
  { cfg with
    Bootstrap := [bootstrapAddr bcfg]
    Addresses := { Swarm := [icfg.swarmAddrForPeer i], API := icfg.apiAddrForPeer i,
                   Gateway := "" }
    Discovery := { MDNS := { Enabled := icfg.Mdns } } }

/-- The loop `for i := 1; i < icfg.Count; i++` of `starBootstrap`. -/
def starLoop (env : Env) (icfg : initCfg) (bcfg : Config) :
    Nat → Nat → Testbed → Testbed × Option GoErr
  | 0, _, fs => (fs, none)
  | left + 1, i, fs =>
    match loadConfig fs i with
    | .error e => (fs, some e)
    | .ok cfg =>
      match writeConfigFile env fs i (starSpokeConfig icfg bcfg i cfg) with
      | (fs1, some e) => (fs1, some e)
      | (fs1, none) => starLoop env icfg bcfg left (i + 1) fs1

/-- The function `starBootstrap`: the final state and the returned error. -/
def starBootstrap (env : Env) (icfg : initCfg) (fs : Testbed) : Testbed × Option GoErr :=
  match loadConfig fs 0 with
  | .error e => (fs, some e)
  | .ok bcfg0 =>
    let bcfg := starHubConfig icfg bcfg0
    match writeConfigFile env fs 0 bcfg with
    | (fs1, some e) => (fs1, some e)
    | (fs1, none) => starLoop env icfg bcfg (icfg.Count.toNat - 1) 1 fs1

/-- The configuration every node gets in `clearBootstrapping`. -/
def clearedConfig (icfg : initCfg) (i : Nat) (cfg : Config) : Config :=
  { cfg with
    Bootstrap := []
    Addresses := { Swarm := [icfg.swarmAddrForPeer i], API := icfg.apiAddrForPeer i,
                   Gateway := "" }
    Discovery := { MDNS := { Enabled := icfg.Mdns } } }

/-- The loop `for i := 0; i < icfg.Count; i++` of `clearBootstrapping`. -/
def clearLoop (env : Env) (icfg : initCfg) : Nat → Nat → Testbed → Testbed × Option GoErr
  | 0, _, fs => (fs, none)
  | left + 1, i, fs =>
    match loadConfig fs i with
    | .error e => (fs, some e)
    | .ok cfg =>
      match writeConfigFile env fs i (clearedConfig icfg i cfg) with
      | (fs1, some e) => (fs1, some e)
      | (fs1, none) => clearLoop env icfg left (i + 1) fs1

/-- The function `clearBootstrapping`: the final state and the returned error. -/
def clearBootstrapping (env : Env) (icfg : initCfg) (fs : Testbed) : Testbed × Option GoErr :=
  clearLoop env icfg icfg.Count.toNat 0 fs

/-! ## `IpfsInit` and the `init` command -/

/-- The loop of `YesNoPrompt` over the successive values of `s`; `none` when no
value is one of y, Y, n, N, in which case the loop never ends. -/
def YesNoPrompt : List String → Option Bool
  | [] => none
  | s :: rest =>
    if s = "y" ∨ s = "Y" then some true
    else if s = "n" ∨ s = "N" then some false
    else YesNoPrompt rest

/-- Body of the goroutine of `IpfsInit` for node `v`: `MkdirAll`, then `ipfs init`.
A failure is logged only. -/
def initNode (env : Env) (fs : Testbed) (v : Nat) : Testbed :=
  match env.mkdirErr v with
  | some _ => fs
  | none => fs.set v (some (env.ipfsInit v ((fs.node v).getD ⟨none, none⟩)))

/-- The goroutines of `IpfsInit`, run in the given order, up to `wait.Wait()`. -/
def initFanOut (env : Env) : List Nat → Testbed → Testbed
  | [], fs => fs
  | v :: vs, fs => initFanOut env vs (initNode env fs v)

/-- The part of `IpfsInit` from the fan-out on: directories, then the `switch` on
the bootstrap strategy. -/
def initNodesAndBootstrap (env : Env) (cfg : initCfg) (fs : Testbed) : Testbed × Outcome :=
  let fs1 := initFanOut env (env.schedule (List.range cfg.Count.toNat)) fs
  if cfg.Bootstrap = "star" then
    match starBootstrap env cfg fs1 with
    | (fs2, some e) => (fs2, .error e)
    | (fs2, none) => (fs2, .ok)
  else if cfg.Bootstrap = "none" then
    match clearBootstrapping env cfg fs1 with
    | (fs2, some e) => (fs2, .error e)
    | (fs2, none) => (fs2, .ok)
  else (fs1, .error (.unrecognizedBootstrap cfg.Bootstrap))

/-- The part of `IpfsInit` from `os.RemoveAll(TestBedDir())` on. -/
def removeAllAndInit (env : Env) (cfg : initCfg) (fs : Testbed) : Testbed × Outcome :=
  match env.removeAllErr with
  | some e => (env.removeAllLeaves fs, .error e)
  | none => initNodesAndBootstrap env cfg Testbed.empty

/-- The function `IpfsInit`: the final state of the testbed and how the call ends. -/
def IpfsInit (env : Env) (cfg : initCfg) (fs : Testbed) : Testbed × Outcome :=
  match fs.node 0 with
  | some _ =>
    if cfg.Force then removeAllAndInit env cfg fs
    else
      match YesNoPrompt env.answers with
      | none => (fs, .hang)
      | some false => (fs, .ok)
      | some true => removeAllAndInit env cfg fs
  | none => initNodesAndBootstrap env cfg fs

/-- How a command of `main` ends. -/
structure CommandRun where
  /-- the testbed after the command -/
  fs : Testbed
  /-- whether the command called its worker (`IpfsInit`, `IpfsKill`) -/
  ranWorker : Bool
  /-- the exit code of the process; `none` when it never exits -/
  exitCode : Option Nat

/-- Go `handleErr` followed by the normal end of `main`: exit code for an outcome. -/
def exitCodeOf : Outcome → Option Nat
  | .ok => some 0
  | .error _ => some 1
  | .panic _ => some 2
  | .hang => none

/-- The `case "init"` of `main`. -/
def mainInit (env : Env) (cfg : initCfg) (fs : Testbed) : CommandRun :=
  if cfg.Count = 0 then ⟨fs, false, some 1⟩
  else
    let r := IpfsInit env cfg fs
    ⟨r.1, true, exitCodeOf r.2⟩

/-! ## `IpfsKill` and the `stop` command -/

/-- The function `IpfsPidOf`. -/
def IpfsPidOf (env : Env) (fs : Testbed) (n : Nat) : Except GoErr Int :=
  match fs.node n with
  | some d =>
    match d.pid with
    | some b => env.atoi b
    | none => .error (.os "open daemon.pid: no such file or directory")
  | none => .error (.os "open daemon.pid: no such file or directory")

/-- What `IpfsKill` does that can be observed. -/
inductive KillEvent where
  /-- a line printed with `fmt.Printf` about node `i` -/
  | printed (i : Nat) (e : GoErr)
  /-- the call `p.Kill()` for node `i` succeeded -/
  | killed (i : Nat) (pid : Int)
  /-- the call `p.Wait()` for node `i` returned: the process is reaped -/
  | reaped (i : Nat)
  /-- the file `daemon.pid` of node `i` was removed -/
  | removedPid (i : Nat)
  deriving DecidableEq

/-- The node an event of `IpfsKill` is about. -/
def KillEvent.node : KillEvent → Nat
  | .printed i _ => i
  | .killed i _ => i
  | .reaped i => i
  | .removedPid i => i

/-- One iteration of the loop of `IpfsKill`. -/
def killNode (env : Env) (fs : Testbed) (i : Nat) : Testbed × List KillEvent :=
  match IpfsPidOf env fs i with
  | .error e => (fs, [.printed i e])
  | .ok pid =>
    match env.findProcessErr i with
    | some e => (fs, [.printed i e])
    | none =>
      match env.killErr i with
      | some e => (fs, [.printed i e])
      | none =>
        match env.removePidErr i with
        | some e => (fs, [.killed i pid, .reaped i, .printed i e])
        | none =>
          (fs.set i ((fs.node i).map fun d => { d with pid := none }),
            [.killed i pid, .reaped i, .removedPid i])

/-- The loop `for i := 0; i < n; i++` of `IpfsKill`. -/
def killLoop (env : Env) : Nat → Nat → Testbed → Testbed × List KillEvent
  | 0, _, fs => (fs, [])
  | left + 1, i, fs =>
    let r := killNode env fs i
    let r2 := killLoop env left (i + 1) r.1
    (r2.1, r.2 ++ r2.2)

/-- The function `IpfsKill`: final state, observable events, how the call ends. -/
def IpfsKill (env : Env) (fs : Testbed) : Testbed × List KillEvent × Outcome :=
  match GetNumNodes fs with
  | none => (fs, [], .panic "i dont know whats going on")
  | some n =>
    let r := killLoop env n 0 fs
    (r.1, r.2, .ok)

/-- The `case "stop", "kill"` of `main`. -/
def mainStop (env : Env) (fs : Testbed) : CommandRun :=
  let r := IpfsKill env fs
  ⟨r.1, true, exitCodeOf r.2.2⟩

/-! ## The readiness probes -/

/-- What `waitOnAPI` does with a response of the identity endpoint. -/
def checkIdentity (peerid : String) : Decoded → Outcome
  | .error e => .error (.livenessDecode e)
  | .ok out =>
    match out "ID" with
    | none => .error .idFieldMissing
    | some (.str idstr) => if idstr ≠ peerid then .error .unexpectedPeer else .ok
    | some _ => .panic "interface conversion: interface is not string"

/-- The loop of `waitOnAPI`: `left` polls remain, `i` polls were made. The result
is the outcome and the number of polls made. -/
def waitOnAPILoop (get : String → Nat → HttpResult) (peerid addr : String) :
    Nat → Nat → Outcome × Nat
  | 0, i => (.error (.apiTimeout addr), i)
  | left + 1, i =>
    match get ("http://" ++ addr ++ "/api/v0/id") i with
    | .response body => (checkIdentity peerid body, i + 1)
    | .failed _ => waitOnAPILoop get peerid addr left (i + 1)

/-- The function `waitOnAPI`: the outcome and the number of polls made. -/
def waitOnAPI (get : String → Nat → HttpResult) (peerid addr : String) : Outcome × Nat :=
  waitOnAPILoop get peerid addr 50 0

/-- The loop of `waitOnSwarmPeers`. -/
def waitOnSwarmPeersLoop (get : String → Nat → HttpResult) (addr : String) :
    Nat → Nat → Outcome × Nat
  | 0, i => (.error (.swarmTimeout addr), i)
  | left + 1, i =>
    match get ("http://" ++ addr ++ "/api/v0/swarm/peers") i with
    | .response (.error e) => (.error (.livenessDecode e), i + 1)
    | .response (.ok out) =>
      match out "Strings" with
      | some (.arr peers) =>
        if peers.length = 0 then waitOnSwarmPeersLoop get addr left (i + 1)
        else (.ok, i + 1)
      | _ => (.panic "interface conversion: interface is not []interface", i + 1)
    | .failed _ => waitOnSwarmPeersLoop get addr left (i + 1)

/-- The function `waitOnSwarmPeers`: the outcome and the number of polls made. -/
def waitOnSwarmPeers (get : String → Nat → HttpResult) (addr : String) : Outcome × Nat :=
  waitOnSwarmPeersLoop get addr 50 0

/-! ## `IpfsStart` -/

/-- What `IpfsStart` does that can be observed, in order. -/
inductive StartEvent where
  /-- the call `cmd.Start()` launched the daemon of node `i` -/
  | launched (i : Nat) (pid : Int)
  /-- the call `waitOnAPI` for node `i` ended with the outcome -/
  | apiProbe (i : Nat) (o : Outcome)
  /-- the call `waitOnSwarmPeers` for node `i` ended with the outcome -/
  | swarmProbe (i : Nat) (o : Outcome)
  deriving DecidableEq

/-- State after iterations of the first loop of `IpfsStart`; `stop` is set when
the function returned or crashed. -/
structure StartStep where
  fs : Testbed
  addrs : List String
  trace : List StartEvent
  stop : Option Outcome

/-- The readiness part of an iteration: the block under `if i == 0 || waitall`. -/
def awaitNode (env : Env) (i : Nat) (fs : Testbed) (addrs : List String)
    (trace : List StartEvent) : StartStep :=
  match loadConfig fs i with
  | .error e => ⟨fs, addrs, trace, some (.error e)⟩
  | .ok cfg =>
    match env.dialArgs cfg.Addresses.API with
    | .failed e => ⟨fs, addrs, trace, some (.error e)⟩
    | .panic why => ⟨fs, addrs, trace, some (.panic why)⟩
    | .addr addr =>
      match (waitOnAPI (env.httpGet i) cfg.Identity.PeerID addr).1 with
      | .ok => ⟨fs, addrs ++ [addr], trace ++ [.apiProbe i .ok], none⟩
      | o => ⟨fs, addrs ++ [addr], trace ++ [.apiProbe i o], some o⟩

/-- One iteration of the first loop of `IpfsStart`, for node `i`. -/
def startNode (env : Env) (waitall : Bool) (i : Nat) (fs : Testbed) (addrs : List String) :
    StartStep :=
  match env.createStdoutErr i with
  | some e => ⟨fs, addrs, [], some (.error e)⟩
  | none =>
    match env.createStderrErr i with
    | some e => ⟨fs, addrs, [], some (.error e)⟩
    | none =>
      match env.startCmd i with
      | .error e => ⟨fs, addrs, [], some (.error e)⟩
      | .ok pid =>
        match env.writePidErr i with
        | some e => ⟨fs, addrs, [.launched i pid], some (.error e)⟩
        | none =>
          let fs1 := fs.set i ((fs.node i).map fun d => { d with pid := some (fmtInt pid) })
          if i = 0 ∨ waitall = true then awaitNode env i fs1 addrs [.launched i pid]
          else ⟨fs1, addrs, [.launched i pid], none⟩

/-- The loop `for i := 0; i < n; i++` that launches the daemons. -/
def startLoop (env : Env) (waitall : Bool) : Nat → Nat → Testbed → List String → StartStep
  | 0, _, fs, addrs => ⟨fs, addrs, [], none⟩
  | left + 1, i, fs, addrs =>
    let r := startNode env waitall i fs addrs
    match r.stop with
    | some _ => r
    | none =>
      let r2 := startLoop env waitall left (i + 1) r.fs r.addrs
      ⟨r2.fs, r2.addrs, r.trace ++ r2.trace, r2.stop⟩

/-- The loop `for i := 0; i < n; i++` over `waitOnSwarmPeers(addrs[i])`. -/
def swarmLoop (env : Env) (addrs : List String) : Nat → Nat → List StartEvent × Outcome
  | 0, _ => ([], .ok)
  | left + 1, i =>
    match addrs.get? i with
    | none => ([], .panic "index out of range")
    | some addr =>
      match (waitOnSwarmPeers (env.httpGet i) addr).1 with
      | .ok =>
        let r := swarmLoop env addrs left (i + 1)
        (.swarmProbe i .ok :: r.1, r.2)
      | o => ([.swarmProbe i o], o)

/-- How a call of `IpfsStart` ends. -/
structure StartRun where
  fs : Testbed
  trace : List StartEvent
  outcome : Outcome

/-- The function `IpfsStart`. -/
def IpfsStart (env : Env) (waitall : Bool) (fs : Testbed) : StartRun :=
  match GetNumNodes fs with
  | none => ⟨fs, [], .panic "i dont know whats going on"⟩
  | some n =>
    let r := startLoop env waitall n 0 fs []
    match r.stop with
    | some o => ⟨r.fs, r.trace, o⟩
    | none =>
      if waitall then
        let s := swarmLoop env r.addrs n 0
        ⟨r.fs, r.trace ++ s.1, s.2⟩
      else ⟨r.fs, r.trace, .ok⟩

/-- The indices of the launched daemons, in the order of the launches. -/
def launchedOf : List StartEvent → List Nat
  | [] => []
  | .launched i _ :: t => i :: launchedOf t
  | _ :: t => launchedOf t

/-! ## Auxiliary definitions and concrete scenarios -/

/-- The common shape of the loops of `starBootstrap` and `clearBootstrapping`:
load the configuration of node `i`, rewrite it with `f i`, write it back. -/
def rewriteLoop (env : Env) (f : Nat → Config → Config) :
    Nat → Nat → Testbed → Testbed × Option GoErr
  | 0, _, fs => (fs, none)
  | left + 1, i, fs =>
    match loadConfig fs i with
    | .error e => (fs, some e)
    | .ok cfg =>
      match writeConfigFile env fs i (f i cfg) with
      | (fs1, some e) => (fs1, some e)
      | (fs1, none) => rewriteLoop env f left (i + 1) fs1

/-- Value of a text of decimal digits, most significant first. -/
def digitsValue : List Char → Nat → Option Nat
  | [], acc => some acc
  | c :: cs, acc =>
    if c.isDigit then digitsValue cs (acc * 10 + (c.toNat - 48)) else none

/-- A reading of `strconv.Atoi`: an optional sign, then one or more decimal
digits, with a value that fits an `int`. -/
def parsePid (s : String) : Except GoErr Int :=
  let signed : Bool × List Char :=
    match s.data with
    | '-' :: cs => (true, cs)
    | '+' :: cs => (false, cs)
    | cs => (false, cs)
  match signed.2 with
  | [] => .error (.os "strconv.Atoi: invalid number")
  | cs =>
    match digitsValue cs 0 with
    | none => .error (.os "strconv.Atoi: invalid number")
    | some n =>
      if signed.1 then
        if n ≤ 9223372036854775808 then .ok (-(n : Int))
        else .error (.os "strconv.Atoi: value out of range")
      else
        if n ≤ 9223372036854775807 then .ok (n : Int)
        else .error (.os "strconv.Atoi: value out of range")

/-- Split a text at every `/`; the second argument is the current piece, reversed. -/
def splitSlash : List Char → List Char → List (List Char)
  | [], cur => [cur.reverse]
  | c :: cs, cur => if c = '/' then cur.reverse :: splitSlash cs [] else splitSlash cs (c :: cur)

/-- A reading of `manet.DialArgs(ma.StringCast(s))` for the addresses the program
writes: the text `/ip4/<host>/tcp/<port>` gives `<host>:<port>`. Every other
text is reported as an error by this reading. -/
def dialArgsOf (s : String) : DialResult :=
  match splitSlash s.data [] with
  | [[], proto, host, transport, port] =>
    if proto = ("ip4" : String).data ∧ transport = ("tcp" : String).data then
      .addr (String.mk host ++ ":" ++ String.mk port)
    else .failed (.os "address is not an ip4 tcp address")
  | _ => .failed (.os "address is not an ip4 tcp address")

/-- The alphabet of base58, in which `ipfs init` writes peer IDs. -/
def base58Alphabet : List Char :=
  ("123456789ABCDEFGHJKLMNPQRSTUVWXYZabcdefghijkmnopqrstuvwxyz" : String).data

/-- Whether a text is made of base58 characters only. -/
def isBase58 (s : String) : Bool := s.data.all fun c => base58Alphabet.contains c

/-- An environment in which every call to the outside world succeeds, the
goroutines run in index order, and no daemon answers on its API. -/
def okEnv : Env where
  answers := []
  removeAllErr := none
  removeAllLeaves := fun fs => fs
  schedule := fun l => l
  mkdirErr := fun _ => none
  ipfsInit := fun _ d => d
  writeCfgErr := fun _ => none
  atoi := parsePid
  findProcessErr := fun _ => none
  killErr := fun _ => none
  removePidErr := fun _ => none
  createStdoutErr := fun _ => none
  createStderrErr := fun _ => none
  startCmd := fun i => .ok (100 + i)
  writePidErr := fun _ => none
  dialArgs := dialArgsOf
  httpGet := fun _ _ _ => .failed "connection refused"

/-- A configuration as `ipfs init` leaves it, for the given peer ID. -/
def freshConfig (peer : String) : Config :=
  { Identity := ⟨peer⟩
    Addresses := ⟨["/ip4/0.0.0.0/tcp/4001"], "/ip4/127.0.0.1/tcp/5001",
      "/ip4/127.0.0.1/tcp/8080"⟩
    Discovery := ⟨⟨true⟩⟩
    Bootstrap := ["/ip4/104.131.131.82/tcp/4001/ipfs/QmaCpDMG"]
    Other := "" }

/-- A testbed of freshly initialised nodes with the given peer IDs, none running. -/
def testbedOf (peers : List String) : Testbed :=
  ⟨fun i => (peers.get? i).map fun p => ⟨some (freshConfig p), none⟩⟩

/-- The bootstrap list stored for node `i`, when its configuration loads. -/
def bootstrapOf (fs : Testbed) (i : Nat) : Option (List String) :=
  match fs.node i with
  | some d => d.config.map (·.Bootstrap)
  | none => none

/-- The end-to-end scenario of the specification: three nodes, star, port 4002. -/
def starCfg3 : initCfg := ⟨3, false, "star", 4002, false⟩

/-- The bootstrap strategy `none` for three nodes. -/
def noneCfg3 : initCfg := ⟨3, false, "none", 4002, false⟩

/-- A forced re-initialisation with five nodes. -/
def forceCfg5 : initCfg := ⟨5, true, "star", 4002, false⟩

/-- An operator who first mistypes and then declines at the prompt. -/
def declineEnv : Env := { okEnv with answers := ["", "maybe", "n"] }

/-- A negative node count with the force flag, as in `iptb -n=-1 -f -bootstrap=none init`. -/
def negativeCountCfg : initCfg := ⟨-1, true, "none", 4002, false⟩

/-- An environment in which `os.Remove` of the pid file of node 1 fails. -/
def failedRemoveEnv : Env :=
  { okEnv with
    removePidErr := fun i =>
      if i = 1 then some (.os "remove daemon.pid: permission denied") else none }

/-- Two nodes: node 0 has no `daemon.pid`, node 1 runs as process 4242. -/
def halfStoppedTestbed : Testbed :=
  ⟨fun i =>
    if i = 0 then some ⟨some (freshConfig "QmA"), none⟩
    else if i = 1 then some ⟨some (freshConfig "QmB"), some "4242"⟩
    else none⟩

/-- A decoded identity document whose `ID` is the given JSON value. -/
def idDocument (v : JsonVal) : Decoded :=
  .ok fun key => if key = "ID" then some v else none

/-- An endpoint that refuses the first two connections and then reports `QmA`. -/
def slowStartGet : String → Nat → HttpResult :=
  fun _ k => if k < 2 then .failed "connection refused" else .response (idDocument (.str "QmA"))

/-- An endpoint whose identity document carries a number in the field `ID`. -/
def numericIdGet : String → Nat → HttpResult :=
  fun _ _ => .response (idDocument (.num "5"))

/-- The node an event of `IpfsStart` is about. -/
def StartEvent.node : StartEvent → Nat
  | .launched i _ => i
  | .apiProbe i _ => i
  | .swarmProbe i _ => i

/-- Whether the event is the end of a `waitOnSwarmPeers` call. -/
def StartEvent.isSwarmProbe : StartEvent → Bool
  | .swarmProbe _ _ => true
  | _ => false

/-- A decoded peers document listing one connected peer. -/
def onePeerDocument : Decoded :=
  .ok fun key => if key = "Strings" then some (.arr [.str "/ip4/127.0.0.1/tcp/4002"]) else none

/-- An environment with two healthy daemons: node `i` reports the identity of
node `i` on its identity endpoint and one peer on its peers endpoint. -/
def healthyEnv : Env :=
  { okEnv with
    httpGet := fun i url _ =>
      if url = "http://" ++ (if i = 0 then "127.0.0.1:5001" else "127.0.0.1:5003")
          ++ "/api/v0/id" then
        .response (idDocument (.str (if i = 0 then "QmA" else "QmB")))
      else .response onePeerDocument }

/-- Two freshly initialised nodes whose API addresses differ. -/
def twoNodeTestbed : Testbed :=
  ⟨fun i =>
    if i = 0 then some ⟨some (freshConfig "QmA"), none⟩
    else if i = 1 then
      some ⟨some { freshConfig "QmB" with
        Addresses := ⟨["/ip4/0.0.0.0/tcp/4003"], "/ip4/127.0.0.1/tcp/5003", ""⟩ }, none⟩
    else none⟩

/-! ## Theorems -/

theorem wrapInt_of_isGoInt (x : Int) (h : isGoInt x) : wrapInt x = x := by
  unfold isGoInt at h; unfold wrapInt; omega

theorem ports_distinct (c : initCfg) (N a b : Nat) (hN : N < 1000) (ha : a < N) (hb : b < N) :
    c.swarmPortForPeer a ≠ c.apiPortForPeer b ∧
    (a ≠ b → c.swarmPortForPeer a ≠ c.swarmPortForPeer b ∧ c.apiPortForPeer a ≠ c.apiPortForPeer b) := by
  unfold initCfg.swarmPortForPeer initCfg.apiPortForPeer addInt wrapInt
  refine ⟨?_, fun hab => ⟨?_, ?_⟩⟩ <;> omega

theorem digitChar_ne_dot (d : Nat) (h : d < 10) : Nat.digitChar d ≠ '.' := by
  interval_cases d <;> decide

theorem toDigitsCore_noDot (fuel : Nat) : ∀ (n : Nat) (acc : List Char),
    (∀ c ∈ acc, c ≠ '.') → ∀ c ∈ Nat.toDigitsCore 10 fuel n acc, c ≠ '.' := by
  induction fuel with
  | zero => intro n acc h; simpa [Nat.toDigitsCore] using h
  | succ k ih =>
    intro n acc h
    have hd : Nat.digitChar (n % 10) ≠ '.' := digitChar_ne_dot _ (Nat.mod_lt _ (by decide))
    have hacc : ∀ c ∈ Nat.digitChar (n % 10) :: acc, c ≠ '.' := by
      intro c hc
      rcases List.mem_cons.1 hc with h1 | h1
      · rw [h1]; exact hd
      · exact h c h1
    simp only [Nat.toDigitsCore]
    split
    · exact hacc
    · exact ih _ _ hacc

theorem natRepr_noDot (n : Nat) : ∀ c ∈ (Nat.repr n).data, c ≠ '.' := by
  simp only [Nat.repr, Nat.toDigits, List.asString]
  exact toDigitsCore_noDot _ _ _ (by simp)

theorem fmtInt_noDot (x : Int) : ∀ c ∈ (fmtInt x).data, c ≠ '.' := by
  unfold fmtInt
  cases x with
  | ofNat m => exact natRepr_noDot m
  | negSucc m =>
    intro c hc
    have : c ∈ ("-" ++ Nat.repr (m + 1)).data := hc
    rw [String.data_append] at this
    rcases List.mem_append.1 this with h1 | h1
    · have : c = '-' := by simpa using h1
      rw [this]; decide
    · exact natRepr_noDot _ c h1

theorem replaceScan_absent (old new : List Char) : ∀ s : List Char,
    occursIn old s = false → replaceScan old new s 0 = s := by
  intro s
  induction s with
  | nil => intro _; rfl
  | cons c cs ih =>
    intro h
    simp only [occursIn, Bool.or_eq_false_iff] at h
    simp [replaceScan, h.1, ih h.2]

/-- The pattern of the rewrite in `starBootstrap`. -/
theorem wildcard_data : ("0.0.0.0" : String).data = ['0', '.', '0', '.', '0', '.', '0'] := rfl

theorem replaceScan_noDot (new : List Char) (rest : List Char) : ∀ pre : List Char,
    (∀ c ∈ pre, c ≠ '.') →
    replaceScan ['0', '.', '0', '.', '0', '.', '0'] new (pre ++ '/' :: rest) 0
      = pre ++ '/' :: replaceScan ['0', '.', '0', '.', '0', '.', '0'] new rest 0 := by
  intro pre
  induction pre with
  | nil => intro _; simp [replaceScan, List.isPrefixOf]
  | cons c cs ih =>
    intro h
    have hcs : ∀ d ∈ cs, d ≠ '.' := fun d hd => h d (List.mem_cons_of_mem _ hd)
    have hnot : List.isPrefixOf ['0', '.', '0', '.', '0', '.', '0'] (c :: (cs ++ '/' :: rest)) = false := by
      cases cs with
      | nil => simp [List.isPrefixOf]
      | cons d ds =>
        have hd : d ≠ '.' := h d (by simp)
        simp [List.isPrefixOf]
        intro _ h2
        exact absurd h2.symm hd
    rw [List.cons_append, replaceScan, hnot, ih hcs]
    simp

theorem replaceScan_head (X : List Char) :
    replaceScan ['0', '.', '0', '.', '0', '.', '0'] ("127.0.0.1" : String).data
        (("/ip4/0.0.0.0" : String).data ++ X) 0
      = ("/ip4/127.0.0.1" : String).data
        ++ replaceScan ['0', '.', '0', '.', '0', '.', '0'] ("127.0.0.1" : String).data X 0 := by
  simp [replaceScan, List.isPrefixOf]

theorem rewrite_bootstrap_addr (p : Int) (pid : String)
    (h : occursIn ("0.0.0.0" : String).data pid.data = false) :
    stringsReplace ("/ip4/0.0.0.0/tcp/" ++ fmtInt p ++ "/ipfs/" ++ pid) "0.0.0.0" "127.0.0.1"
      = "/ip4/127.0.0.1/tcp/" ++ fmtInt p ++ "/ipfs/" ++ pid := by
  apply String.ext
  have e1 : ("/ip4/0.0.0.0/tcp/" ++ fmtInt p ++ "/ipfs/" ++ pid).data
      = ("/ip4/0.0.0.0" : String).data
        ++ ((("/tcp/" : String).data ++ (fmtInt p).data ++ ("/ipfs" : String).data)
          ++ '/' :: pid.data) := by
    simp [String.data_append]
  have e2 : ("/ip4/127.0.0.1/tcp/" ++ fmtInt p ++ "/ipfs/" ++ pid).data
      = ("/ip4/127.0.0.1" : String).data
        ++ ((("/tcp/" : String).data ++ (fmtInt p).data ++ ("/ipfs" : String).data)
          ++ '/' :: pid.data) := by
    simp [String.data_append]
  have hpre : ∀ c ∈ (("/tcp/" : String).data ++ (fmtInt p).data ++ ("/ipfs" : String).data),
      c ≠ '.' := by
    intro c hc
    rcases List.mem_append.1 hc with h1 | h1
    · rcases List.mem_append.1 h1 with h2 | h2
      · intro hdot; rw [hdot] at h2; revert h2; decide
      · exact fmtInt_noDot p c h2
    · intro hdot; rw [hdot] at h1; revert h1; decide
  unfold stringsReplace
  rw [e1, e2, wildcard_data, replaceScan_head, replaceScan_noDot _ _ _ hpre]
  rw [wildcard_data] at h
  rw [replaceScan_absent _ _ _ h]

theorem Testbed.eq_of_node (a b : Testbed) (h : ∀ j, a.node j = b.node j) : a = b := by
  cases a; cases b; simp only [Testbed.mk.injEq]; funext j; exact h j

theorem starLoop_eq_rewriteLoop (env : Env) (icfg : initCfg) (bcfg : Config) :
    ∀ (left i : Nat) (fs : Testbed),
      starLoop env icfg bcfg left i fs = rewriteLoop env (starSpokeConfig icfg bcfg) left i fs := by
  intro left
  induction left with
  | zero => intro i fs; rfl
  | succ k ih =>
    intro i fs
    simp only [starLoop, rewriteLoop]
    split
    · rfl
    · split
      · rfl
      · exact ih _ _

theorem clearLoop_eq_rewriteLoop (env : Env) (icfg : initCfg) :
    ∀ (left i : Nat) (fs : Testbed),
      clearLoop env icfg left i fs = rewriteLoop env (clearedConfig icfg) left i fs := by
  intro left
  induction left with
  | zero => intro i fs; rfl
  | succ k ih =>
    intro i fs
    simp only [clearLoop, rewriteLoop]
    split
    · rfl
    · split
      · rfl
      · exact ih _ _

theorem loadConfig_ok (fs : Testbed) (i : Nat) (c : Config) (h : loadConfig fs i = .ok c) :
    ∃ d, fs.node i = some d ∧ d.config = some c := by
  unfold loadConfig at h
  split at h
  · rename_i d hd
    split at h
    · rename_i c1 hc
      refine ⟨d, hd, ?_⟩
      rw [hc]; injection h with h1; rw [h1]
    · cases h
  · cases h

theorem loadConfig_of_node (fs : Testbed) (i : Nat) (d : NodeDir) (c : Config)
    (hd : fs.node i = some d) (hc : d.config = some c) : loadConfig fs i = .ok c := by
  unfold loadConfig; rw [hd]; simp only; rw [hc]

theorem loadConfig_congr (a b : Testbed) (i : Nat) (h : a.node i = b.node i) :
    loadConfig a i = loadConfig b i := by
  unfold loadConfig; rw [h]

theorem writeConfigFile_ok (env : Env) (fs fs1 : Testbed) (i : Nat) (c : Config)
    (h : writeConfigFile env fs i c = (fs1, none)) :
    env.writeCfgErr i = none ∧
      ∃ d, fs.node i = some d ∧ fs1 = fs.set i (some { d with config := some c }) := by
  unfold writeConfigFile at h
  split at h
  · cases h
  · rename_i hw
    split at h
    · rename_i d hd
      refine ⟨hw, d, hd, ?_⟩
      injection h with h1 _
      exact h1.symm
    · cases h

theorem writeConfigFile_same (env : Env) (fs : Testbed) (i : Nat) (c : Config) (d : NodeDir)
    (hw : env.writeCfgErr i = none) (hd : fs.node i = some d) (hc : d.config = some c) :
    writeConfigFile env fs i c = (fs, none) := by
  unfold writeConfigFile
  rw [hw]; simp only; rw [hd]; simp only
  congr 1
  apply Testbed.eq_of_node
  intro j
  simp only [Testbed.set]
  split
  · rename_i hj
    rw [hj, hd]
    cases d; simp only at hc; rw [hc]
  · rfl

/-- What a successful run of the loop leaves: nodes outside the range are
untouched, every node in the range holds its rewritten configuration. -/
theorem rewriteLoop_spec (env : Env) (f : Nat → Config → Config) :
    ∀ (left i : Nat) (fs fs1 : Testbed), rewriteLoop env f left i fs = (fs1, none) →
      (∀ j, j < i ∨ i + left ≤ j → fs1.node j = fs.node j) ∧
      (∀ j, i ≤ j → j < i + left → env.writeCfgErr j = none ∧
        ∃ d c, fs.node j = some d ∧ d.config = some c ∧
          fs1.node j = some { d with config := some (f j c) }) := by
  intro left
  induction left with
  | zero =>
    intro i fs fs1 h
    simp only [rewriteLoop] at h
    injection h with h1 _
    subst h1
    exact ⟨fun _ _ => rfl, fun j h1 h2 => by omega⟩
  | succ k ih =>
    intro i fs fs1 h
    simp only [rewriteLoop] at h
    split at h
    · cases h
    · rename_i cfg hload
      split at h
      · cases h
      · rename_i fs2 hwrite
        obtain ⟨hw, d, hd, hfs2⟩ := writeConfigFile_ok env fs fs2 i _ hwrite
        obtain ⟨d0, hd0, hc0⟩ := loadConfig_ok fs i cfg hload
        rw [hd] at hd0; injection hd0 with hd0; subst hd0
        obtain ⟨hframe, hrange⟩ := ih (i + 1) fs2 fs1 h
        have hother : ∀ j, j ≠ i → fs2.node j = fs.node j := by
          intro j hj; rw [hfs2]; simp [Testbed.set, hj]
        constructor
        · intro j hj
          rw [hframe j (by omega), hother j (by omega)]
        · intro j h1 h2
          by_cases hji : j = i
          · subst hji
            refine ⟨hw, d, cfg, hd, hc0, ?_⟩
            rw [hframe j (by omega), hfs2]
            simp [Testbed.set]
          · obtain ⟨hwj, dj, cj, hdj, hcj, hres⟩ := hrange j (by omega) (by omega)
            refine ⟨hwj, dj, cj, ?_, hcj, hres⟩
            rw [← hother j hji]; exact hdj

/-- Running the loop again on its own successful result changes nothing,
when rewriting is idempotent. -/
theorem rewriteLoop_idem (env : Env) (f : Nat → Config → Config)
    (hf : ∀ i c, f i (f i c) = f i c) :
    ∀ (left i : Nat) (fs fs1 : Testbed), rewriteLoop env f left i fs = (fs1, none) →
      rewriteLoop env f left i fs1 = (fs1, none) := by
  intro left
  induction left with
  | zero => intro i fs fs1 _; rfl
  | succ k ih =>
    intro i fs fs1 h
    obtain ⟨_, hrange⟩ := rewriteLoop_spec env f (k + 1) i fs fs1 h
    obtain ⟨hw, d, c, _, _, hres⟩ := hrange i (le_refl _) (by omega)
    simp only [rewriteLoop] at h
    split at h
    · cases h
    · split at h
      · cases h
      · rename_i fs2 _
        have hnext := ih (i + 1) fs2 fs1 h
        simp only [rewriteLoop]
        rw [loadConfig_of_node fs1 i _ (f i c) hres rfl]
        simp only
        rw [hf, writeConfigFile_same env fs1 i (f i c) _ hw hres rfl]
        exact hnext

theorem starBootstrap_ok (env : Env) (icfg : initCfg) (fs fs2 : Testbed)
    (h : starBootstrap env icfg fs = (fs2, none)) :
    ∃ bcfg0 d0, fs.node 0 = some d0 ∧ d0.config = some bcfg0 ∧ env.writeCfgErr 0 = none ∧
      rewriteLoop env (starSpokeConfig icfg (starHubConfig icfg bcfg0)) (icfg.Count.toNat - 1) 1
        (fs.set 0 (some { d0 with config := some (starHubConfig icfg bcfg0) })) = (fs2, none) := by
  unfold starBootstrap at h
  split at h
  · cases h
  · rename_i bcfg0 hload
    simp only at h
    split at h
    · cases h
    · rename_i fs1 hwrite
      obtain ⟨hw, d, hd, hfs1⟩ := writeConfigFile_ok env fs fs1 0 _ hwrite
      obtain ⟨d0, hd0, hc0⟩ := loadConfig_ok fs 0 bcfg0 hload
      rw [hd] at hd0; injection hd0 with hd0; subst hd0
      refine ⟨bcfg0, d, hd, hc0, hw, ?_⟩
      rw [← hfs1, ← starLoop_eq_rewriteLoop]
      exact h

theorem addInt_zero (p : Int) (h : isGoInt p) : addInt p ((0 : Nat) : Int) = p := by
  unfold addInt; rw [Nat.cast_zero, Int.add_zero]; exact wrapInt_of_isGoInt p h

theorem bootstrapAddr_hub (icfg : initCfg) (bcfg0 : Config) (h : isGoInt icfg.PortStart) :
    bootstrapAddr (starHubConfig icfg bcfg0)
      = stringsReplace ("/ip4/0.0.0.0/tcp/" ++ fmtInt icfg.PortStart ++ "/ipfs/"
          ++ bcfg0.Identity.PeerID) "0.0.0.0" "127.0.0.1" := by
  simp only [bootstrapAddr, starHubConfig, List.headD_cons, initCfg.swarmAddrForPeer,
    initCfg.swarmPortForPeer, addInt_zero _ h]

theorem occursIn_noDot : ∀ l : List Char, (∀ c ∈ l, c ≠ '.') →
    occursIn ['0', '.', '0', '.', '0', '.', '0'] l = false := by
  intro l
  induction l with
  | nil => intro _; simp [occursIn, List.isPrefixOf]
  | cons c cs ih =>
    intro h
    have hcs : ∀ d ∈ cs, d ≠ '.' := fun d hd => h d (List.mem_cons_of_mem _ hd)
    have hnot : List.isPrefixOf ['0', '.', '0', '.', '0', '.', '0'] (c :: cs) = false := by
      cases cs with
      | nil => simp [List.isPrefixOf]
      | cons d ds =>
        have hd : d ≠ '.' := h d (by simp)
        simp [List.isPrefixOf]
        intro _ h2
        exact absurd h2.symm hd
    rw [occursIn, hnot, ih hcs]
    rfl

/-- Rewriting the wildcard in the swarm address of a node gives the loopback address. -/
theorem rewrite_swarm_addr (p : Int) :
    stringsReplace ("/ip4/0.0.0.0/tcp/" ++ fmtInt p) "0.0.0.0" "127.0.0.1"
      = "/ip4/127.0.0.1/tcp/" ++ fmtInt p := by
  apply String.ext
  have e1 : ("/ip4/0.0.0.0/tcp/" ++ fmtInt p).data
      = ("/ip4/0.0.0.0" : String).data ++ (("/tcp/" : String).data ++ (fmtInt p).data) := by
    simp [String.data_append]
  have e2 : ("/ip4/127.0.0.1/tcp/" ++ fmtInt p).data
      = ("/ip4/127.0.0.1" : String).data ++ (("/tcp/" : String).data ++ (fmtInt p).data) := by
    simp [String.data_append]
  have hpre : ∀ c ∈ (("/tcp/" : String).data ++ (fmtInt p).data), c ≠ '.' := by
    intro c hc
    rcases List.mem_append.1 hc with h2 | h2
    · intro hdot; rw [hdot] at h2; revert h2; decide
    · exact fmtInt_noDot p c h2
  unfold stringsReplace
  rw [e1, e2, wildcard_data, replaceScan_head, replaceScan_absent _ _ _ (occursIn_noDot _ hpre)]

/-- A base58 text, such as a peer ID written by `ipfs init`, does not contain `0.0.0.0`. -/
theorem isBase58_lacks_wildcard (s : String) (h : isBase58 s = true) :
    occursIn ("0.0.0.0" : String).data s.data = false := by
  rw [wildcard_data]
  apply occursIn_noDot
  intro c hc hdot
  unfold isBase58 at h
  have := List.all_eq_true.1 h c hc
  rw [hdot] at this
  revert this
  decide

/-- C1: after a successful `starBootstrap`, with node 0 holding a peer ID that does
not contain `0.0.0.0` (as every base58 peer ID written by `ipfs init`), node 0 has
an empty bootstrap list and, for every `i` with `1 <= i < Count`, node `i` has
exactly one bootstrap entry: the swarm address of node 0,
`/ip4/0.0.0.0/tcp/<PortStart>`, with `0.0.0.0` rewritten to `127.0.0.1`, followed
by `/ipfs/` and the peer ID of node 0. -/
theorem star_bootstrap_lists (env : Env) (icfg : initCfg) (fs : Testbed) (bcfg0 : Config)
    (hP : isGoInt icfg.PortStart) (h : (starBootstrap env icfg fs).2 = none)
    (h0 : loadConfig fs 0 = .ok bcfg0)
    (hid : occursIn ("0.0.0.0" : String).data bcfg0.Identity.PeerID.data = false) :
    icfg.swarmAddrForPeer 0 = "/ip4/0.0.0.0/tcp/" ++ fmtInt icfg.PortStart ∧
    (∃ c0, loadConfig (starBootstrap env icfg fs).1 0 = .ok c0 ∧ c0.Bootstrap = [] ∧
      c0.Identity = bcfg0.Identity ∧ c0.Addresses.Swarm = [icfg.swarmAddrForPeer 0]) ∧
    ∀ i : Nat, 1 ≤ i → (i : Int) < icfg.Count →
      ∃ ci, loadConfig (starBootstrap env icfg fs).1 i = .ok ci ∧
        ci.Bootstrap = [stringsReplace (icfg.swarmAddrForPeer 0) "0.0.0.0" "127.0.0.1"
          ++ "/ipfs/" ++ bcfg0.Identity.PeerID] ∧
        ci.Bootstrap = ["/ip4/127.0.0.1/tcp/" ++ fmtInt icfg.PortStart ++ "/ipfs/"
          ++ bcfg0.Identity.PeerID] := by
  have heq : starBootstrap env icfg fs = ((starBootstrap env icfg fs).1, none) :=
    Prod.ext rfl h
  obtain ⟨b, d0, hd0, hc0, _, hloop⟩ := starBootstrap_ok env icfg fs _ heq
  have hb : b = bcfg0 := by
    have := loadConfig_of_node fs 0 d0 b hd0 hc0
    rw [h0] at this
    injection this with this
    exact this.symm
  subst hb
  obtain ⟨hframe, hrange⟩ := rewriteLoop_spec env _ _ _ _ _ hloop
  have hswarm : icfg.swarmAddrForPeer 0 = "/ip4/0.0.0.0/tcp/" ++ fmtInt icfg.PortStart := by
    simp only [initCfg.swarmAddrForPeer, initCfg.swarmPortForPeer, addInt_zero _ hP]
  refine ⟨hswarm, ?_, ?_⟩
  · refine ⟨starHubConfig icfg b, ?_, rfl, rfl, rfl⟩
    apply loadConfig_of_node _ 0 { d0 with config := some (starHubConfig icfg b) } _ _ rfl
    rw [hframe 0 (Or.inl (by omega))]
    simp [Testbed.set]
  · intro i hi hlt
    have hlt2 : i < 1 + (icfg.Count.toNat - 1) := by omega
    obtain ⟨_, d, c, _, _, hres⟩ := hrange i hi hlt2
    refine ⟨_, loadConfig_of_node _ i _ _ hres rfl, ?_, ?_⟩
    · simp only [starSpokeConfig, bootstrapAddr_hub icfg b hP,
        rewrite_bootstrap_addr _ _ hid, hswarm, rewrite_swarm_addr]
    · simp only [starSpokeConfig, bootstrapAddr_hub icfg b hP,
        rewrite_bootstrap_addr _ _ hid]

/-- C1 (witness): the scenario with three nodes and port 4002; node 1 gets the
single entry `/ip4/127.0.0.1/tcp/4002/ipfs/QmA`. -/
theorem star_bootstrap_lists_witness :
    isBase58 "QmA" = true ∧
    bootstrapOf (starBootstrap okEnv starCfg3 (testbedOf ["QmA", "QmB", "QmC"])).1 1
      = some ["/ip4/127.0.0.1/tcp/4002/ipfs/QmA"] ∧
    ∀ i : Nat, 1 ≤ i → (i : Int) < starCfg3.Count →
      ∃ ci, loadConfig (starBootstrap okEnv starCfg3 (testbedOf ["QmA", "QmB", "QmC"])).1 i
          = .ok ci ∧
        ci.Bootstrap = [stringsReplace (starCfg3.swarmAddrForPeer 0) "0.0.0.0" "127.0.0.1"
          ++ "/ipfs/" ++ (freshConfig "QmA").Identity.PeerID] ∧
        ci.Bootstrap = ["/ip4/127.0.0.1/tcp/" ++ fmtInt starCfg3.PortStart ++ "/ipfs/"
          ++ (freshConfig "QmA").Identity.PeerID] :=
  ⟨by decide, by decide,
    (star_bootstrap_lists okEnv starCfg3 (testbedOf ["QmA", "QmB", "QmC"]) (freshConfig "QmA")
      (by decide) (by decide) rfl (isBase58_lacks_wildcard "QmA" (by decide))).2.2⟩

theorem starHubConfig_idem (icfg : initCfg) (c : Config) :
    starHubConfig icfg (starHubConfig icfg c) = starHubConfig icfg c := rfl

theorem starSpokeConfig_idem (icfg : initCfg) (b : Config) (i : Nat) (c : Config) :
    starSpokeConfig icfg b i (starSpokeConfig icfg b i c) = starSpokeConfig icfg b i c := rfl

theorem clearedConfig_idem (icfg : initCfg) (i : Nat) (c : Config) :
    clearedConfig icfg i (clearedConfig icfg i c) = clearedConfig icfg i c := rfl

theorem starBootstrap_idem (env : Env) (icfg : initCfg) (fs fs2 : Testbed)
    (h : starBootstrap env icfg fs = (fs2, none)) : starBootstrap env icfg fs2 = (fs2, none) := by
  obtain ⟨bcfg0, d0, hd0, hc0, hw, hloop⟩ := starBootstrap_ok env icfg fs fs2 h
  obtain ⟨hframe, _⟩ := rewriteLoop_spec env _ _ _ _ _ hloop
  have hnode : fs2.node 0 = some { d0 with config := some (starHubConfig icfg bcfg0) } := by
    rw [hframe 0 (Or.inl (by omega))]; simp [Testbed.set]
  unfold starBootstrap
  rw [loadConfig_of_node fs2 0 _ _ hnode rfl]
  simp only
  rw [starHubConfig_idem, writeConfigFile_same env fs2 0 _ _ hw hnode rfl]
  simp only
  rw [starLoop_eq_rewriteLoop]
  exact rewriteLoop_idem env _ (starSpokeConfig_idem icfg _) _ _ _ _ hloop

theorem clearBootstrapping_idem (env : Env) (icfg : initCfg) (fs fs2 : Testbed)
    (h : clearBootstrapping env icfg fs = (fs2, none)) :
    clearBootstrapping env icfg fs2 = (fs2, none) := by
  unfold clearBootstrapping at h ⊢
  rw [clearLoop_eq_rewriteLoop] at h ⊢
  exact rewriteLoop_idem env _ (clearedConfig_idem icfg) _ _ _ _ h

/-- C5: topology configuration is idempotent. When `starBootstrap` (or
`clearBootstrapping`) returns without error, applying it again with the same
init config to the resulting testbed returns without error and leaves the
testbed, hence every node configuration, exactly as the first run left it. -/
theorem topology_idempotent (env : Env) (icfg : initCfg) (fs : Testbed) :
    ((starBootstrap env icfg fs).2 = none →
      starBootstrap env icfg (starBootstrap env icfg fs).1
        = ((starBootstrap env icfg fs).1, none)) ∧
    ((clearBootstrapping env icfg fs).2 = none →
      clearBootstrapping env icfg (clearBootstrapping env icfg fs).1
        = ((clearBootstrapping env icfg fs).1, none)) := by
  constructor
  · intro h
    exact starBootstrap_idem env icfg fs _ (Prod.ext rfl h)
  · intro h
    exact clearBootstrapping_idem env icfg fs _ (Prod.ext rfl h)

theorem getNumNodesLoop_spec (fs : Testbed) (M : Nat) (hM : fs.node M = none)
    (hlow : ∀ j, j < M → (fs.node j).isSome = true) :
    ∀ (left i : Nat), i ≤ M → M < i + left → getNumNodesLoop fs left i = some M := by
  intro left
  induction left with
  | zero => intro i h1 h2; omega
  | succ k ih =>
    intro i h1 h2
    simp only [getNumNodesLoop]
    by_cases hi : i = M
    · subst hi; rw [hM]
    · have hs := hlow i (by omega)
      cases hnode : fs.node i with
      | none => rw [hnode] at hs; cases hs
      | some d => simp only; exact ih (i + 1) (by omega) (by omega)

/-- The count is the least index whose directory is missing, when that index is below 2000. -/
theorem getNumNodes_eq (fs : Testbed) (M : Nat) (hM2 : M < 2000)
    (h : ∀ i, (fs.node i).isSome = true ↔ i < M) : GetNumNodes fs = some M := by
  unfold GetNumNodes
  apply getNumNodesLoop_spec fs M
  · cases hn : fs.node M with
    | none => rfl
    | some d => have := (h M).1 (by rw [hn]; rfl); omega
  · intro j hj; exact (h j).2 hj
  · omega
  · omega

theorem getNumNodesLoop_sound (fs : Testbed) :
    ∀ (left i n : Nat), getNumNodesLoop fs left i = some n →
      i ≤ n ∧ n < i + left ∧ fs.node n = none ∧ ∀ j, i ≤ j → j < n → (fs.node j).isSome = true := by
  intro left
  induction left with
  | zero => intro i n h; cases h
  | succ k ih =>
    intro i n h
    simp only [getNumNodesLoop] at h
    split at h
    · rename_i hnode
      injection h with h; subst h
      exact ⟨le_refl _, by omega, hnode, fun j h1 h2 => by omega⟩
    · rename_i d hnode
      obtain ⟨h1, h2, h3, h4⟩ := ih (i + 1) n h
      refine ⟨by omega, by omega, h3, ?_⟩
      intro j hj1 hj2
      by_cases hji : j = i
      · subst hji; rw [hnode]; rfl
      · exact h4 j (by omega) hj2

/-- When `GetNumNodes` returns `n`, directory `n` is missing and all below exist. -/
theorem getNumNodes_sound (fs : Testbed) (n : Nat) (h : GetNumNodes fs = some n) :
    n < 2000 ∧ fs.node n = none ∧ ∀ j, j < n → (fs.node j).isSome = true := by
  obtain ⟨_, h2, h3, h4⟩ := getNumNodesLoop_sound fs 2000 0 n h
  exact ⟨by omega, h3, fun j hj => h4 j (Nat.zero_le _) hj⟩

theorem writeConfigFile_isSome (env : Env) (fs : Testbed) (i : Nat) (c : Config) (j : Nat) :
    ((writeConfigFile env fs i c).1.node j).isSome = (fs.node j).isSome := by
  unfold writeConfigFile
  split
  · rfl
  · split
    · rename_i d hd
      simp only [Testbed.set]
      split
      · rename_i hj; rw [hj, hd]; rfl
      · rfl
    · rfl

theorem rewriteLoop_isSome (env : Env) (f : Nat → Config → Config) (j : Nat) :
    ∀ (left i : Nat) (fs : Testbed),
      ((rewriteLoop env f left i fs).1.node j).isSome = (fs.node j).isSome := by
  intro left
  induction left with
  | zero => intro i fs; rfl
  | succ k ih =>
    intro i fs
    simp only [rewriteLoop]
    split
    · rfl
    · rename_i cfg _
      have hw := writeConfigFile_isSome env fs i (f i cfg) j
      split
      · rename_i fs1 e heq
        rw [heq] at hw; exact hw
      · rename_i fs1 heq
        rw [heq] at hw
        rw [ih (i + 1) fs1]; exact hw

theorem starBootstrap_isSome (env : Env) (icfg : initCfg) (fs : Testbed) (j : Nat) :
    ((starBootstrap env icfg fs).1.node j).isSome = (fs.node j).isSome := by
  unfold starBootstrap
  split
  · rfl
  · rename_i bcfg0 _
    have hw := writeConfigFile_isSome env fs 0 (starHubConfig icfg bcfg0) j
    simp only
    split
    · rename_i fs1 e heq
      rw [heq] at hw; exact hw
    · rename_i fs1 heq
      rw [heq] at hw
      rw [starLoop_eq_rewriteLoop, rewriteLoop_isSome]; exact hw

theorem clearBootstrapping_isSome (env : Env) (icfg : initCfg) (fs : Testbed) (j : Nat) :
    ((clearBootstrapping env icfg fs).1.node j).isSome = (fs.node j).isSome := by
  unfold clearBootstrapping
  rw [clearLoop_eq_rewriteLoop, rewriteLoop_isSome]

theorem initFanOut_isSome (env : Env) (j : Nat) :
    ∀ (l : List Nat) (fs : Testbed), (∀ v ∈ l, env.mkdirErr v = none) →
      (((initFanOut env l fs).node j).isSome = true ↔ (j ∈ l ∨ (fs.node j).isSome = true)) := by
  intro l
  induction l with
  | nil => intro fs _; simp [initFanOut]
  | cons v vs ih =>
    intro fs h
    have hv : env.mkdirErr v = none := h v (by simp)
    have hvs : ∀ w ∈ vs, env.mkdirErr w = none := fun w hw => h w (List.mem_cons_of_mem _ hw)
    simp only [initFanOut]
    rw [ih (initNode env fs v) hvs]
    simp only [initNode, hv, Testbed.set, List.mem_cons]
    by_cases hjv : j = v
    · simp [hjv]
    · simp [hjv]

theorem initNodesAndBootstrap_isSome (env : Env) (cfg : initCfg) (fs : Testbed) (j : Nat) :
    ((initNodesAndBootstrap env cfg fs).1.node j).isSome
      = ((initFanOut env (env.schedule (List.range cfg.Count.toNat)) fs).node j).isSome := by
  unfold initNodesAndBootstrap
  simp only
  split
  · have h := starBootstrap_isSome env cfg
      (initFanOut env (env.schedule (List.range cfg.Count.toNat)) fs) j
    split
    · rename_i heq; rw [heq] at h; exact h
    · rename_i heq; rw [heq] at h; exact h
  · split
    · have h := clearBootstrapping_isSome env cfg
        (initFanOut env (env.schedule (List.range cfg.Count.toNat)) fs) j
      split
      · rename_i heq; rw [heq] at h; exact h
      · rename_i heq; rw [heq] at h; exact h
    · rfl

theorem testbedOf_isSome (peers : List String) (i : Nat) :
    ((testbedOf peers).node i).isSome = true ↔ i < peers.length := by
  simp only [testbedOf, List.get?_eq_getElem?]
  by_cases h : i < peers.length
  · simp [h]
  · simp [h, List.getElem?_eq_none (Nat.le_of_not_lt h)]

/-- C6: on a node set made of the directories `0..N-1` with `N >= 1`, `IpfsInit`
with the force flag and `Count = M`, `1 <= M < 2000`, when `RemoveAll` and every
`MkdirAll` succeed and whatever the order of the goroutines, ends with exactly
the directories `0..M-1`, and `GetNumNodes` then returns `M`. -/
theorem init_force_replaces_node_set (env : Env) (cfg : initCfg) (fs : Testbed) (N M : Nat)
    (hfs : ∀ i, (fs.node i).isSome = true ↔ i < N) (hN : 1 ≤ N)
    (hM2 : M < 2000)
    (hforce : cfg.Force = true) (hcount : cfg.Count = (M : Int))
    (hrm : env.removeAllErr = none) (hmk : ∀ i, i < M → env.mkdirErr i = none)
    (hsched : (env.schedule (List.range M)).Perm (List.range M)) :
    (∀ i, ((IpfsInit env cfg fs).1.node i).isSome = true ↔ i < M) ∧
      GetNumNodes (IpfsInit env cfg fs).1 = some M := by
  have h0 : (fs.node 0).isSome = true := (hfs 0).2 (by omega)
  have hdirs : ∀ i, ((IpfsInit env cfg fs).1.node i).isSome = true ↔ i < M := by
    intro i
    have hrun : IpfsInit env cfg fs = initNodesAndBootstrap env cfg Testbed.empty := by
      unfold IpfsInit
      cases hnode : fs.node 0 with
      | none => rw [hnode] at h0; cases h0
      | some d => simp only [hforce, if_true, removeAllAndInit, hrm]
    have hcnt : cfg.Count.toNat = M := by rw [hcount]; exact Int.toNat_natCast M
    rw [hrun, initNodesAndBootstrap_isSome, hcnt]
    have hall : ∀ v ∈ env.schedule (List.range M), env.mkdirErr v = none := by
      intro v hv
      exact hmk v (List.mem_range.1 (hsched.mem_iff.1 hv))
    rw [initFanOut_isSome env i _ _ hall, hsched.mem_iff, List.mem_range]
    simp [Testbed.empty]
  exact ⟨hdirs, getNumNodes_eq _ M hM2 hdirs⟩

/-- C6 (witness): three existing nodes, forced re-initialisation with five. -/
theorem init_force_replaces_node_set_witness :
    (∀ i, ((IpfsInit okEnv forceCfg5 (testbedOf ["QmA", "QmB", "QmC"])).1.node i).isSome = true
        ↔ i < 5) ∧
      GetNumNodes (IpfsInit okEnv forceCfg5 (testbedOf ["QmA", "QmB", "QmC"])).1 = some 5 :=
  init_force_replaces_node_set okEnv forceCfg5 (testbedOf ["QmA", "QmB", "QmC"]) 3 5
    (fun i => testbedOf_isSome _ i)
    (by decide) (by decide) rfl rfl rfl (fun _ _ => rfl) (List.Perm.refl _)

/-- C7 (amended): when the directory of node 0 exists, the force flag is not set
and the operator answers no, `IpfsInit` returns `nil` and leaves the testbed as
it was. -/
theorem init_declined_returns_nil (env : Env) (cfg : initCfg) (fs : Testbed)
    (hdir : (fs.node 0).isSome = true) (hforce : cfg.Force = false)
    (hno : YesNoPrompt env.answers = some false) :
    IpfsInit env cfg fs = (fs, Outcome.ok) := by
  unfold IpfsInit
  cases hnode : fs.node 0 with
  | none => rw [hnode] at hdir; cases hdir
  | some d => simp [hforce, hno]

/-- C7 (witness): three nodes exist, the operator ends up answering `n`. -/
theorem init_declined_returns_nil_witness :
    IpfsInit declineEnv starCfg3 (testbedOf ["QmA", "QmB", "QmC"])
      = (testbedOf ["QmA", "QmB", "QmC"], Outcome.ok) :=
  init_declined_returns_nil declineEnv starCfg3 (testbedOf ["QmA", "QmB", "QmC"])
    (by decide) (by decide) (by decide)

/-- C7 (counterexample): node 0 exists, no force flag, the operator answers no,
and `IpfsInit` returns success, not an error. -/
theorem init_declined_is_not_an_error :
    ((testbedOf ["QmA", "QmB", "QmC"]).node 0).isSome = true ∧ starCfg3.Force = false ∧
      YesNoPrompt declineEnv.answers = some false ∧
      (IpfsInit declineEnv starCfg3 (testbedOf ["QmA", "QmB", "QmC"])).2 = Outcome.ok ∧
      ¬ ∃ e, (IpfsInit declineEnv starCfg3 (testbedOf ["QmA", "QmB", "QmC"])).2
        = Outcome.error e := by
  refine ⟨by decide, by decide, by decide, by decide, ?_⟩
  rintro ⟨e, he⟩
  have h : (IpfsInit declineEnv starCfg3 (testbedOf ["QmA", "QmB", "QmC"])).2 = Outcome.ok := by
    decide
  rw [h] at he
  cases he

/-- The `init` command with `Count = 0` exits with code 1 without calling `IpfsInit`. -/
theorem mainInit_zero_count (env : Env) (cfg : initCfg) (fs : Testbed) (h : cfg.Count = 0) :
    (mainInit env cfg fs).ranWorker = false ∧ (mainInit env cfg fs).exitCode = some 1 ∧
      (mainInit env cfg fs).fs = fs := by
  simp [mainInit, h]

/-- C10 (failing input): with `Count = -1`, the force flag and strategy `none` on
an existing two-node testbed, the `init` command does run `IpfsInit`, which
removes the testbed root, creates no node, and the command exits with code 0. -/
theorem init_negative_count_proceeds :
    negativeCountCfg.Count < 1 ∧
      ((testbedOf ["QmA", "QmB"]).node 0).isSome = true ∧
      (mainInit okEnv negativeCountCfg (testbedOf ["QmA", "QmB"])).ranWorker = true ∧
      (mainInit okEnv negativeCountCfg (testbedOf ["QmA", "QmB"])).exitCode = some 0 ∧
      (mainInit okEnv negativeCountCfg (testbedOf ["QmA", "QmB"])).fs.node 0 = none ∧
      (mainInit okEnv negativeCountCfg (testbedOf ["QmA", "QmB"])).fs.node 1 = none := by
  refine ⟨by decide, by decide, by decide, by decide, by decide, by decide⟩

theorem killNode_other (env : Env) (fs : Testbed) (i j : Nat) (h : j ≠ i) :
    (killNode env fs i).1.node j = fs.node j := by
  unfold killNode
  split
  · rfl
  · split
    · rfl
    · split
      · rfl
      · split
        · rfl
        · simp [Testbed.set, h]

theorem IpfsPidOf_congr (env : Env) (a b : Testbed) (i : Nat) (h : a.node i = b.node i) :
    IpfsPidOf env a i = IpfsPidOf env b i := by
  unfold IpfsPidOf; rw [h]

theorem killNode_congr (env : Env) (a b : Testbed) (i : Nat) (h : a.node i = b.node i) :
    (killNode env a i).2 = (killNode env b i).2 ∧
      (killNode env a i).1.node i = (killNode env b i).1.node i := by
  unfold killNode
  rw [IpfsPidOf_congr env a b i h]
  split
  · exact ⟨rfl, h⟩
  · split
    · exact ⟨rfl, h⟩
    · split
      · exact ⟨rfl, h⟩
      · split
        · exact ⟨rfl, h⟩
        · simp [Testbed.set, h]

/-- Every iteration of the loop of `IpfsKill` acts on its own node as if it ran
alone on the initial testbed, and touches no other node. -/
theorem killLoop_spec (env : Env) :
    ∀ (left i : Nat) (fs : Testbed),
      (∀ j, j < i ∨ i + left ≤ j → (killLoop env left i fs).1.node j = fs.node j) ∧
      (∀ j, i ≤ j → j < i + left →
        (killLoop env left i fs).1.node j = (killNode env fs j).1.node j ∧
          ∀ ev ∈ (killNode env fs j).2, ev ∈ (killLoop env left i fs).2) := by
  intro left
  induction left with
  | zero =>
    intro i fs
    exact ⟨fun _ _ => rfl, fun j h1 h2 => by omega⟩
  | succ k ih =>
    intro i fs
    obtain ⟨hframe, hrange⟩ := ih (i + 1) (killNode env fs i).1
    simp only [killLoop]
    constructor
    · intro j hj
      rw [hframe j (by omega), killNode_other env fs i j (by omega)]
    · intro j h1 h2
      by_cases hji : j = i
      · subst hji
        refine ⟨hframe j (by omega), ?_⟩
        intro ev hev
        exact List.mem_append_left _ hev
      · obtain ⟨hn, hev⟩ := hrange j (by omega) (by omega)
        obtain ⟨c1, c2⟩ := killNode_congr env (killNode env fs i).1 fs j
          (killNode_other env fs i j hji)
        refine ⟨by rw [hn, c2], ?_⟩
        intro ev hev2
        rw [← c1] at hev2
        exact List.mem_append_right _ (hev ev hev2)

theorem killNode_events_node (env : Env) (fs : Testbed) (i : Nat) :
    ∀ ev ∈ (killNode env fs i).2, ev.node = i := by
  intro ev hev
  unfold killNode at hev
  split at hev
  · simp only [List.mem_singleton] at hev; rw [hev]; rfl
  · split at hev
    · simp only [List.mem_singleton] at hev; rw [hev]; rfl
    · split at hev
      · simp only [List.mem_singleton] at hev; rw [hev]; rfl
      · split at hev
        · simp only [List.mem_cons, List.mem_singleton, List.not_mem_nil, or_false] at hev
          rcases hev with h | h | h <;> rw [h] <;> rfl
        · simp only [List.mem_cons, List.mem_singleton, List.not_mem_nil, or_false] at hev
          rcases hev with h | h | h <;> rw [h] <;> rfl

/-- Every event of the loop of `IpfsKill` is an event of the iteration of its own
node, run alone on the initial testbed. -/
theorem killLoop_events (env : Env) :
    ∀ (left i : Nat) (fs : Testbed), ∀ ev ∈ (killLoop env left i fs).2,
      i ≤ ev.node ∧ ev.node < i + left ∧ ev ∈ (killNode env fs ev.node).2 := by
  intro left
  induction left with
  | zero => intro i fs ev hev; simp [killLoop] at hev
  | succ k ih =>
    intro i fs ev hev
    simp only [killLoop] at hev
    rcases List.mem_append.1 hev with h | h
    · have hnode := killNode_events_node env fs i ev h
      rw [hnode]
      exact ⟨le_refl _, by omega, h⟩
    · obtain ⟨h1, h2, h3⟩ := ih (i + 1) (killNode env fs i).1 ev h
      refine ⟨by omega, by omega, ?_⟩
      have hne : ev.node ≠ i := by omega
      rw [← (killNode_congr env (killNode env fs i).1 fs ev.node
        (killNode_other env fs i ev.node hne)).1]
      exact h3

/-- C8 (amended): `IpfsKill` over `n` nodes always returns `nil`, and the `stop`
command then exits with code 0. For a node without `daemon.pid` the read error is
printed and nothing else happens for that node: no kill, no wait, no removal, its
directory unchanged. Every node whose pid file reads and whose process is found
and killed is reaped, whatever happens to the other nodes; when `os.Remove`
succeeds its `daemon.pid` is gone and the events of that node are exactly the
kill, the wait and the removal; when `os.Remove` fails the failure is printed and
the file stays. -/
theorem kill_continues_past_failures (env : Env) (fs : Testbed) (n : Nat)
    (hn : GetNumNodes fs = some n) :
    ((IpfsKill env fs).2.2 = Outcome.ok ∧ (mainStop env fs).exitCode = some 0) ∧
    (∀ j d, j < n → fs.node j = some d → d.pid = none →
      KillEvent.printed j (.os "open daemon.pid: no such file or directory")
          ∈ (IpfsKill env fs).2.1 ∧
        (∀ ev ∈ (IpfsKill env fs).2.1, ev.node = j →
          ev = KillEvent.printed j (.os "open daemon.pid: no such file or directory")) ∧
        (IpfsKill env fs).1.node j = fs.node j) ∧
    (∀ i pid, i < n → IpfsPidOf env fs i = .ok pid → env.findProcessErr i = none →
      env.killErr i = none →
        KillEvent.killed i pid ∈ (IpfsKill env fs).2.1 ∧
        KillEvent.reaped i ∈ (IpfsKill env fs).2.1 ∧
        (env.removePidErr i = none →
          KillEvent.removedPid i ∈ (IpfsKill env fs).2.1 ∧
            (∃ d, (IpfsKill env fs).1.node i = some d ∧ d.pid = none) ∧
            ∀ ev ∈ (IpfsKill env fs).2.1, ev.node = i →
              ev = KillEvent.killed i pid ∨ ev = KillEvent.reaped i ∨
                ev = KillEvent.removedPid i) ∧
        (∀ e, env.removePidErr i = some e →
          KillEvent.printed i e ∈ (IpfsKill env fs).2.1 ∧
            (IpfsKill env fs).1.node i = fs.node i ∧
            ∀ ev ∈ (IpfsKill env fs).2.1, ev.node = i →
              ev = KillEvent.killed i pid ∨ ev = KillEvent.reaped i ∨
                ev = KillEvent.printed i e)) := by
  have hrun : IpfsKill env fs = ((killLoop env n 0 fs).1, (killLoop env n 0 fs).2, Outcome.ok) := by
    unfold IpfsKill; rw [hn]
  have hexit : (mainStop env fs).exitCode = some 0 := by
    unfold mainStop; rw [hrun]; rfl
  obtain ⟨_, hrange⟩ := killLoop_spec env n 0 fs
  have hevents := killLoop_events env n 0 fs
  refine ⟨⟨by rw [hrun], hexit⟩, ?_, ?_⟩
  · rw [hrun]
    intro j d hj hd hpid
    obtain ⟨hnode, hev⟩ := hrange j (Nat.zero_le _) (by omega)
    have hk : killNode env fs j
        = (fs, [KillEvent.printed j (.os "open daemon.pid: no such file or directory")]) := by
      simp [killNode, IpfsPidOf, hd, hpid]
    rw [hk] at hnode hev
    refine ⟨hev _ (by simp), ?_, hnode⟩
    intro ev hmem hnodeq
    have h3 := (hevents ev hmem).2.2
    rw [hnodeq, hk] at h3
    simpa using h3
  · rw [hrun]
    intro i pid hi hpid hfind hkill
    obtain ⟨hnode, hev⟩ := hrange i (Nat.zero_le _) (by omega)
    have hsome : (fs.node i).isSome = true := (getNumNodes_sound fs n hn).2.2 i hi
    obtain ⟨d, hd⟩ := Option.isSome_iff_exists.1 hsome
    cases hrem : env.removePidErr i with
    | none =>
      have hk : killNode env fs i
          = (fs.set i ((fs.node i).map fun d => { d with pid := none }),
              [KillEvent.killed i pid, KillEvent.reaped i, KillEvent.removedPid i]) := by
        simp [killNode, hpid, hfind, hkill, hrem]
      rw [hk] at hnode hev
      refine ⟨hev _ (by simp), hev _ (by simp), ?_, ?_⟩
      · intro _
        refine ⟨hev _ (by simp), ⟨{ d with pid := none }, ?_, rfl⟩, ?_⟩
        · rw [hnode]; simp [Testbed.set, hd]
        · intro ev hmem hnodeq
          have h3 := (hevents ev hmem).2.2
          rw [hnodeq, hk] at h3
          simpa using h3
      · intro e he; cases he
    | some e0 =>
      have hk : killNode env fs i
          = (fs, [KillEvent.killed i pid, KillEvent.reaped i, KillEvent.printed i e0]) := by
        simp [killNode, hpid, hfind, hkill, hrem]
      rw [hk] at hnode hev
      refine ⟨hev _ (by simp), hev _ (by simp), ?_, ?_⟩
      · intro h; cases h
      · intro e he
        injection he with he; subst he
        refine ⟨hev _ (by simp), hnode, ?_⟩
        intro ev hmem hnodeq
        have h3 := (hevents ev hmem).2.2
        rw [hnodeq, hk] at h3
        simpa using h3

/-- C8 (witness): node 0 has no pid file and only gets its printed line; node 1
is killed, reaped and loses its pid file all the same. -/
theorem kill_continues_past_failures_witness :
    GetNumNodes halfStoppedTestbed = some 2 ∧
    KillEvent.printed 0 (.os "open daemon.pid: no such file or directory")
      ∈ (IpfsKill okEnv halfStoppedTestbed).2.1 ∧
    (∀ ev ∈ (IpfsKill okEnv halfStoppedTestbed).2.1, ev.node = 0 →
      ev = KillEvent.printed 0 (.os "open daemon.pid: no such file or directory")) ∧
    KillEvent.reaped 1 ∈ (IpfsKill okEnv halfStoppedTestbed).2.1 ∧
    KillEvent.removedPid 1 ∈ (IpfsKill okEnv halfStoppedTestbed).2.1 :=
  have h := kill_continues_past_failures okEnv halfStoppedTestbed 2 (by decide)
  ⟨by decide, (h.2.1 0 _ (by decide) rfl rfl).1, (h.2.1 0 _ (by decide) rfl rfl).2.1,
    (h.2.2 1 4242 (by decide) rfl rfl rfl).2.1,
    ((h.2.2 1 4242 (by decide) rfl rfl rfl).2.2.1 rfl).1⟩

/-- C8 (counterexample): two runs over the same two nodes. In the first, node 0
has no `daemon.pid`, and yet `IpfsKill` returns `nil` and the `stop` command exits
with code 0: the failure is printed, not reported to the caller as an error. In
the second, the pid file of node 1 reads and its process is killed, but
`os.Remove` fails (the case the code prints as `error removing pid file`), and
the `daemon.pid` of node 1 is still there. -/
theorem kill_failure_not_returned :
    (GetNumNodes halfStoppedTestbed = some 2 ∧
      (∃ d, halfStoppedTestbed.node 0 = some d ∧ d.pid = none) ∧
      (∃ e, IpfsPidOf okEnv halfStoppedTestbed 0 = .error e) ∧
      (IpfsKill okEnv halfStoppedTestbed).2.2 = Outcome.ok ∧
      (mainStop okEnv halfStoppedTestbed).exitCode = some 0) ∧
    (IpfsPidOf failedRemoveEnv halfStoppedTestbed 1 = .ok 4242 ∧
      failedRemoveEnv.findProcessErr 1 = none ∧ failedRemoveEnv.killErr 1 = none ∧
      KillEvent.killed 1 4242 ∈ (IpfsKill failedRemoveEnv halfStoppedTestbed).2.1 ∧
      KillEvent.removedPid 1 ∉ (IpfsKill failedRemoveEnv halfStoppedTestbed).2.1 ∧
      (IpfsKill failedRemoveEnv halfStoppedTestbed).1.node 1
        = some ⟨some (freshConfig "QmB"), some "4242"⟩) := by
  refine ⟨⟨by decide, ⟨_, rfl, rfl⟩, ⟨_, rfl⟩, by decide, by decide⟩,
    rfl, rfl, rfl, by decide, by decide, by decide⟩

theorem waitOnAPILoop_polls (get : String → Nat → HttpResult) (peerid addr : String) :
    ∀ (left i : Nat), (waitOnAPILoop get peerid addr left i).2 ≤ i + left := by
  intro left
  induction left with
  | zero => intro i; simp [waitOnAPILoop]
  | succ k ih =>
    intro i
    simp only [waitOnAPILoop]
    split
    · simp only; omega
    · have := ih (i + 1); omega

theorem waitOnAPILoop_first (get : String → Nat → HttpResult) (peerid addr : String)
    (k : Nat) (body : Decoded)
    (hk : get ("http://" ++ addr ++ "/api/v0/id") k = .response body) :
    ∀ (left i : Nat), i ≤ k → k < i + left →
      (∀ j, i ≤ j → j < k → ∃ m, get ("http://" ++ addr ++ "/api/v0/id") j = .failed m) →
      waitOnAPILoop get peerid addr left i = (checkIdentity peerid body, k + 1) := by
  intro left
  induction left with
  | zero => intro i h1 h2; omega
  | succ n ih =>
    intro i h1 h2 hfail
    simp only [waitOnAPILoop]
    by_cases hik : i = k
    · subst hik; rw [hk]
    · obtain ⟨m, hm⟩ := hfail i (le_refl _) (by omega)
      rw [hm]
      exact ih (i + 1) (by omega) (by omega) (fun j hj1 hj2 => hfail j (by omega) hj2)

theorem waitOnAPILoop_timeout (get : String → Nat → HttpResult) (peerid addr : String) :
    ∀ (left i : Nat),
      (∀ j, i ≤ j → j < i + left → ∃ m, get ("http://" ++ addr ++ "/api/v0/id") j = .failed m) →
      waitOnAPILoop get peerid addr left i = (Outcome.error (.apiTimeout addr), i + left) := by
  intro left
  induction left with
  | zero => intro i _; rfl
  | succ n ih =>
    intro i hfail
    simp only [waitOnAPILoop]
    obtain ⟨m, hm⟩ := hfail i (le_refl _) (by omega)
    rw [hm]
    simp only
    rw [ih (i + 1) (fun j hj1 hj2 => hfail j (by omega) (by omega))]
    congr 1
    omega

theorem checkIdentity_ok_iff (peerid : String) (body : Decoded) :
    checkIdentity peerid body = Outcome.ok ↔
      ∃ out, body = .ok out ∧ out "ID" = some (.str peerid) := by
  constructor
  · intro h
    unfold checkIdentity at h
    split at h
    · cases h
    · rename_i out
      refine ⟨out, rfl, ?_⟩
      split at h
      · cases h
      · rename_i idstr hid
        split at h
        · cases h
        · rename_i hne
          rw [hid, not_not.1 hne]
      · cases h
  · rintro ⟨out, rfl, hid⟩
    simp [checkIdentity, hid]

/-- C9 (amended): `waitOnAPI` makes at most 50 polls. The first poll that gets a
response decides the result and is the last poll: the call succeeds exactly when
the response decodes and its `ID` is the expected peer ID as a string; an absent
`ID`, or an `ID` that is another string, gives the identity error at once; a
body that does not decode gives the decode error. When none of the 50 polls gets
a response the result is the timeout error, after 50 polls. -/
theorem waitOnAPI_decided_by_first_response (get : String → Nat → HttpResult)
    (peerid addr : String) :
    (waitOnAPI get peerid addr).2 ≤ 50 ∧
    (∀ k body, k < 50 →
      (∀ j, j < k → ∃ m, get ("http://" ++ addr ++ "/api/v0/id") j = .failed m) →
      get ("http://" ++ addr ++ "/api/v0/id") k = .response body →
        (waitOnAPI get peerid addr).2 = k + 1 ∧
        ((waitOnAPI get peerid addr).1 = Outcome.ok ↔
          ∃ out, body = .ok out ∧ out "ID" = some (.str peerid)) ∧
        (∀ out, body = .ok out → out "ID" = none →
          (waitOnAPI get peerid addr).1 = Outcome.error .idFieldMissing) ∧
        (∀ out s, body = .ok out → out "ID" = some (.str s) → s ≠ peerid →
          (waitOnAPI get peerid addr).1 = Outcome.error .unexpectedPeer) ∧
        (∀ msg, body = .error msg →
          (waitOnAPI get peerid addr).1 = Outcome.error (.livenessDecode msg))) ∧
    ((∀ k, k < 50 → ∃ m, get ("http://" ++ addr ++ "/api/v0/id") k = .failed m) →
      waitOnAPI get peerid addr = (Outcome.error (.apiTimeout addr), 50)) := by
  refine ⟨?_, ?_, ?_⟩
  · have := waitOnAPILoop_polls get peerid addr 50 0
    simpa [waitOnAPI] using this
  · intro k body hk hfail hresp
    have hrun : waitOnAPI get peerid addr = (checkIdentity peerid body, k + 1) :=
      waitOnAPILoop_first get peerid addr k body hresp 50 0 (Nat.zero_le _) (by omega)
        (fun j _ hj => hfail j hj)
    rw [hrun]
    refine ⟨rfl, checkIdentity_ok_iff peerid body, ?_, ?_, ?_⟩
    · intro out hb hid; subst hb; simp [checkIdentity, hid]
    · intro out s hb hid hne; subst hb; simp [checkIdentity, hid, hne]
    · intro msg hb; subst hb; rfl
  · intro hfail
    have := waitOnAPILoop_timeout get peerid addr 50 0 (fun j _ hj => hfail j (by omega))
    simpa [waitOnAPI] using this

/-- C9 (witness): two refused connections, then the expected identity; three polls. -/
theorem waitOnAPI_decided_by_first_response_witness :
    (waitOnAPI slowStartGet "QmA" "127.0.0.1:5002").2 = 2 + 1 ∧
      (waitOnAPI slowStartGet "QmA" "127.0.0.1:5002").1 = Outcome.ok :=
  have h := (waitOnAPI_decided_by_first_response slowStartGet "QmA" "127.0.0.1:5002").2.1 2
    (idDocument (.str "QmA")) (by decide)
    (fun j hj => ⟨"connection refused", by simp [slowStartGet, hj]⟩) rfl
  ⟨h.1, h.2.1.2 ⟨_, rfl, rfl⟩⟩

/-- C9 (counterexample): the response decodes and its `ID` is the number 5, a
value other than the expected peer ID; `waitOnAPI` then ends in a run-time panic
of the type assertion, not in an identity-mismatch error. -/
theorem waitOnAPI_panics_on_non_string_id :
    numericIdGet ("http://" ++ "127.0.0.1:5002" ++ "/api/v0/id") 0
        = .response (idDocument (.num "5")) ∧
      waitOnAPI numericIdGet "QmA" "127.0.0.1:5002"
        = (Outcome.panic "interface conversion: interface is not string", 1) ∧
      ¬ ∃ e, (waitOnAPI numericIdGet "QmA" "127.0.0.1:5002").1 = Outcome.error e := by
  have h : waitOnAPI numericIdGet "QmA" "127.0.0.1:5002"
      = (Outcome.panic "interface conversion: interface is not string", 1) := by decide
  refine ⟨rfl, h, ?_⟩
  rintro ⟨e, he⟩
  rw [h] at he
  cases he

theorem waitOnSwarmPeersLoop_ok (get : String → Nat → HttpResult) (addr : String) :
    ∀ (left i : Nat), (waitOnSwarmPeersLoop get addr left i).1 = Outcome.ok →
      ∃ k out peers, i ≤ k ∧ k < i + left ∧
        get ("http://" ++ addr ++ "/api/v0/swarm/peers") k = .response (.ok out) ∧
        out "Strings" = some (.arr peers) ∧ peers ≠ [] := by
  intro left
  induction left with
  | zero => intro i h; cases h
  | succ n ih =>
    intro i h
    simp only [waitOnSwarmPeersLoop] at h
    split at h
    · cases h
    · rename_i out hget
      split at h
      · rename_i peers hstr
        split at h
        · obtain ⟨k, o, p, h1, h2, h3⟩ := ih (i + 1) h
          exact ⟨k, o, p, by omega, by omega, h3⟩
        · rename_i hlen
          refine ⟨i, out, peers, le_refl _, by omega, hget, hstr, ?_⟩
          intro hnil; rw [hnil] at hlen; exact hlen rfl
      · cases h
    · obtain ⟨k, o, p, h1, h2, h3⟩ := ih (i + 1) h
      exact ⟨k, o, p, by omega, by omega, h3⟩

/-- A successful `waitOnSwarmPeers` saw a non-empty peer list in one of its 50 polls. -/
theorem waitOnSwarmPeers_ok (get : String → Nat → HttpResult) (addr : String)
    (h : (waitOnSwarmPeers get addr).1 = Outcome.ok) :
    ∃ k out peers, k < 50 ∧
      get ("http://" ++ addr ++ "/api/v0/swarm/peers") k = .response (.ok out) ∧
      out "Strings" = some (.arr peers) ∧ peers ≠ [] := by
  obtain ⟨k, out, peers, _, h2, h3⟩ := waitOnSwarmPeersLoop_ok get addr 50 0 h
  exact ⟨k, out, peers, by omega, h3⟩

theorem launchedOf_append (a b : List StartEvent) :
    launchedOf (a ++ b) = launchedOf a ++ launchedOf b := by
  induction a with
  | nil => rfl
  | cons e t ih => cases e <;> simp [launchedOf, ih]

theorem launchedOf_swarm (l : List StartEvent) (h : ∀ ev ∈ l, ev.isSwarmProbe = true) :
    launchedOf l = [] := by
  induction l with
  | nil => rfl
  | cons e t ih =>
    have he := h e (by simp)
    have ht : ∀ ev ∈ t, ev.isSwarmProbe = true := fun ev hev => h ev (List.mem_cons_of_mem _ hev)
    cases e with
    | launched i p => cases he
    | apiProbe i o => cases he
    | swarmProbe i o => simpa [launchedOf] using ih ht

theorem loadConfig_setPid (fs : Testbed) (i j : Nat) (p : Option String) :
    loadConfig (fs.set i ((fs.node i).map fun d => { d with pid := p })) j = loadConfig fs j := by
  unfold loadConfig
  simp only [Testbed.set]
  by_cases h : j = i
  · subst h
    simp only [if_true]
    cases fs.node j with
    | none => rfl
    | some d => rfl
  · simp only [h, if_false]

/-- The four ways the readiness block of an iteration can end. -/
theorem awaitNode_cases (env : Env) (i : Nat) (fs : Testbed) (addrs : List String)
    (tr : List StartEvent) :
    (awaitNode env i fs addrs tr).fs = fs ∧
    ((∃ o, (awaitNode env i fs addrs tr).stop = some o ∧ (awaitNode env i fs addrs tr).trace = tr) ∨
     (∃ cfg addr, loadConfig fs i = .ok cfg ∧ env.dialArgs cfg.Addresses.API = .addr addr ∧
        (awaitNode env i fs addrs tr).addrs = addrs ++ [addr] ∧
        (awaitNode env i fs addrs tr).trace
          = tr ++ [.apiProbe i (waitOnAPI (env.httpGet i) cfg.Identity.PeerID addr).1] ∧
        (awaitNode env i fs addrs tr).stop
          = if (waitOnAPI (env.httpGet i) cfg.Identity.PeerID addr).1 = Outcome.ok then none
            else some (waitOnAPI (env.httpGet i) cfg.Identity.PeerID addr).1)) := by
  unfold awaitNode
  cases hload : loadConfig fs i with
  | error e => exact ⟨rfl, Or.inl ⟨_, rfl, rfl⟩⟩
  | ok cfg =>
    simp only
    cases hdial : env.dialArgs cfg.Addresses.API with
    | failed e => exact ⟨rfl, Or.inl ⟨_, rfl, rfl⟩⟩
    | panic why => exact ⟨rfl, Or.inl ⟨_, rfl, rfl⟩⟩
    | addr a =>
      simp only
      cases hprobe : (waitOnAPI (env.httpGet i) cfg.Identity.PeerID a).1 with
      | ok => exact ⟨rfl, Or.inr ⟨cfg, a, rfl, hdial, rfl, by rw [hprobe], by rw [hprobe]; rfl⟩⟩
      | error e =>
        exact ⟨rfl, Or.inr ⟨cfg, a, rfl, hdial, rfl, by rw [hprobe], by rw [hprobe]; rfl⟩⟩
      | panic why =>
        exact ⟨rfl, Or.inr ⟨cfg, a, rfl, hdial, rfl, by rw [hprobe], by rw [hprobe]; rfl⟩⟩
      | hang => exact ⟨rfl, Or.inr ⟨cfg, a, rfl, hdial, rfl, by rw [hprobe], by rw [hprobe]; rfl⟩⟩

/-- The ways one iteration of the launch loop can end. -/
theorem startNode_cases (env : Env) (waitall : Bool) (i : Nat) (fs : Testbed)
    (addrs : List String) :
    (∀ j, loadConfig (startNode env waitall i fs addrs).fs j = loadConfig fs j) ∧
    ((∃ o, (startNode env waitall i fs addrs).stop = some o ∧
        (startNode env waitall i fs addrs).trace = []) ∨
     (∃ pid o, (startNode env waitall i fs addrs).stop = some o ∧
        (startNode env waitall i fs addrs).trace = [.launched i pid]) ∨
     (∃ pid, (startNode env waitall i fs addrs).stop = none ∧
        (startNode env waitall i fs addrs).trace = [.launched i pid] ∧
        ¬ (i = 0 ∨ waitall = true) ∧ (startNode env waitall i fs addrs).addrs = addrs) ∨
     (∃ pid cfg addr, (i = 0 ∨ waitall = true) ∧ loadConfig fs i = .ok cfg ∧
        env.dialArgs cfg.Addresses.API = .addr addr ∧
        (startNode env waitall i fs addrs).addrs = addrs ++ [addr] ∧
        (startNode env waitall i fs addrs).trace
          = [.launched i pid,
              .apiProbe i (waitOnAPI (env.httpGet i) cfg.Identity.PeerID addr).1] ∧
        (startNode env waitall i fs addrs).stop
          = if (waitOnAPI (env.httpGet i) cfg.Identity.PeerID addr).1 = Outcome.ok then none
            else some (waitOnAPI (env.httpGet i) cfg.Identity.PeerID addr).1)) := by
  unfold startNode
  cases h1 : env.createStdoutErr i with
  | some e => exact ⟨fun _ => rfl, Or.inl ⟨_, rfl, rfl⟩⟩
  | none =>
    simp only
    cases h2 : env.createStderrErr i with
    | some e => exact ⟨fun _ => rfl, Or.inl ⟨_, rfl, rfl⟩⟩
    | none =>
      simp only
      cases h3 : env.startCmd i with
      | error e => exact ⟨fun _ => rfl, Or.inl ⟨_, rfl, rfl⟩⟩
      | ok pid =>
        simp only
        cases h4 : env.writePidErr i with
        | some e => exact ⟨fun _ => rfl, Or.inr (Or.inl ⟨pid, _, rfl, rfl⟩)⟩
        | none =>
          simp only
          by_cases hw : i = 0 ∨ waitall = true
          · rw [if_pos hw]
            obtain ⟨hfs, hcase⟩ := awaitNode_cases env i
              (fs.set i ((fs.node i).map fun d => { d with pid := some (fmtInt pid) })) addrs
              [.launched i pid]
            refine ⟨fun j => by rw [hfs]; exact loadConfig_setPid fs i j _, ?_⟩
            rcases hcase with ⟨o, ho, htr⟩ | ⟨cfg, addr, hload, hdial, haddrs, htr, hstop⟩
            · exact Or.inr (Or.inl ⟨pid, o, ho, htr⟩)
            · rw [loadConfig_setPid] at hload
              exact Or.inr (Or.inr (Or.inr ⟨pid, cfg, addr, hw, hload, hdial, haddrs, htr, hstop⟩))
          · rw [if_neg hw]
            exact ⟨fun j => loadConfig_setPid fs i j _,
              Or.inr (Or.inr (Or.inl ⟨pid, rfl, rfl, hw, rfl⟩))⟩

theorem startLoop_stop (env : Env) (waitall : Bool) (k i : Nat) (fs : Testbed)
    (addrs : List String) (o : Outcome) (h : (startNode env waitall i fs addrs).stop = some o) :
    startLoop env waitall (k + 1) i fs addrs = startNode env waitall i fs addrs := by
  simp only [startLoop]; rw [h]

theorem startLoop_continue (env : Env) (waitall : Bool) (k i : Nat) (fs : Testbed)
    (addrs : List String) (h : (startNode env waitall i fs addrs).stop = none) :
    startLoop env waitall (k + 1) i fs addrs
      = ⟨(startLoop env waitall k (i + 1) (startNode env waitall i fs addrs).fs
            (startNode env waitall i fs addrs).addrs).fs,
          (startLoop env waitall k (i + 1) (startNode env waitall i fs addrs).fs
            (startNode env waitall i fs addrs).addrs).addrs,
          (startNode env waitall i fs addrs).trace ++
            (startLoop env waitall k (i + 1) (startNode env waitall i fs addrs).fs
              (startNode env waitall i fs addrs).addrs).trace,
          (startLoop env waitall k (i + 1) (startNode env waitall i fs addrs).fs
            (startNode env waitall i fs addrs).addrs).stop⟩ := by
  simp only [startLoop]; rw [h]

/-- Shape of the events of one iteration: at most a launch of node `i` followed by
its identity probe, and a probe that did not succeed ends the loop with its outcome. -/
theorem startNode_trace (env : Env) (waitall : Bool) (i : Nat) (fs : Testbed)
    (addrs : List String) :
    (launchedOf (startNode env waitall i fs addrs).trace = [] ∨
      launchedOf (startNode env waitall i fs addrs).trace = [i]) ∧
    ((startNode env waitall i fs addrs).stop = none →
      launchedOf (startNode env waitall i fs addrs).trace = [i]) ∧
    (∀ ev ∈ (startNode env waitall i fs addrs).trace, ev.node = i ∧ ev.isSwarmProbe = false) ∧
    (∀ j o, StartEvent.apiProbe j o ∈ (startNode env waitall i fs addrs).trace →
      (o ≠ Outcome.ok → (startNode env waitall i fs addrs).stop = some o) ∧
      (o = Outcome.ok → (startNode env waitall i fs addrs).stop = none)) := by
  obtain ⟨_, hc⟩ := startNode_cases env waitall i fs addrs
  rcases hc with ⟨o, hs, ht⟩ | ⟨pid, o, hs, ht⟩ | ⟨pid, hs, ht, _, _⟩ |
    ⟨pid, cfg, addr, _, _, _, _, ht, hs⟩
  · rw [ht, hs]; simp [launchedOf]
  · rw [ht, hs]; simp [launchedOf, StartEvent.node, StartEvent.isSwarmProbe]
  · rw [ht, hs]; simp [launchedOf, StartEvent.node, StartEvent.isSwarmProbe]
  · rw [ht, hs]
    refine ⟨Or.inr (by simp [launchedOf]), fun _ => by simp [launchedOf], ?_, ?_⟩
    · intro ev hev
      simp only [List.mem_cons, List.mem_singleton, List.not_mem_nil, or_false] at hev
      rcases hev with h | h <;> rw [h] <;> exact ⟨rfl, rfl⟩
    · intro j o hev
      simp only [List.mem_cons, List.mem_singleton, List.not_mem_nil, or_false] at hev
      rcases hev with h | h
      · cases h
      · injection h with h1 h2
        rw [← h2]
        exact ⟨fun hne => by rw [if_neg hne], fun heq => by rw [if_pos heq]⟩

/-- The launch loop from index `i`: launches are `i, i+1, ...` in this order, no
event is about a node below `i`, and a probe that did not succeed ends the loop. -/
theorem startLoop_trace (env : Env) (waitall : Bool) :
    ∀ (left i : Nat) (fs : Testbed) (addrs : List String),
      (∀ j, loadConfig (startLoop env waitall left i fs addrs).fs j = loadConfig fs j) ∧
      (∃ m, launchedOf (startLoop env waitall left i fs addrs).trace = List.range' i m) ∧
      (∀ ev ∈ (startLoop env waitall left i fs addrs).trace,
        i ≤ ev.node ∧ ev.isSwarmProbe = false) ∧
      (∀ j o, StartEvent.apiProbe j o ∈ (startLoop env waitall left i fs addrs).trace →
        o ≠ Outcome.ok → (startLoop env waitall left i fs addrs).stop = some o) := by
  intro left
  induction left with
  | zero =>
    intro i fs addrs
    refine ⟨fun _ => rfl, ⟨0, rfl⟩, ?_, ?_⟩
    · intro ev hev; simp [startLoop] at hev
    · intro j o hev; simp [startLoop] at hev
  | succ k ih =>
    intro i fs addrs
    obtain ⟨hcfg, _⟩ := startNode_cases env waitall i fs addrs
    obtain ⟨hl, hl2, hnode, hprobe⟩ := startNode_trace env waitall i fs addrs
    cases hstop : (startNode env waitall i fs addrs).stop with
    | some o =>
      rw [startLoop_stop env waitall k i fs addrs o hstop]
      refine ⟨hcfg, ?_, ?_, ?_⟩
      · rcases hl with h | h
        · exact ⟨0, by rw [h]; rfl⟩
        · exact ⟨1, by rw [h]; rfl⟩
      · intro ev hev
        obtain ⟨h1, h2⟩ := hnode ev hev
        exact ⟨by omega, h2⟩
      · intro j o2 hev hne
        exact (hprobe j o2 hev).1 hne
    | none =>
      rw [startLoop_continue env waitall k i fs addrs hstop]
      obtain ⟨icfg, ⟨m, hm⟩, inode, iprobe⟩ := ih (i + 1) (startNode env waitall i fs addrs).fs
        (startNode env waitall i fs addrs).addrs
      refine ⟨fun j => by rw [icfg j, hcfg j], ⟨m + 1, ?_⟩, ?_, ?_⟩
      · simp only [launchedOf_append, hl2 hstop, hm]
        rfl
      · intro ev hev
        rcases List.mem_append.1 hev with h | h
        · obtain ⟨h1, h2⟩ := hnode ev h
          exact ⟨by omega, h2⟩
        · obtain ⟨h1, h2⟩ := inode ev h
          exact ⟨by omega, h2⟩
      · intro j o hev hne
        rcases List.mem_append.1 hev with h | h
        · have := (hprobe j o h).1 hne
          rw [hstop] at this; cases this
        · exact iprobe j o h hne

/-- Events of the second loop: only swarm probes, and a probe that did not
succeed is the outcome of the loop. -/
theorem swarmLoop_trace (env : Env) (addrs : List String) :
    ∀ (left i : Nat),
      (∀ ev ∈ (swarmLoop env addrs left i).1, ev.isSwarmProbe = true) ∧
      (∀ j o, StartEvent.swarmProbe j o ∈ (swarmLoop env addrs left i).1 → o ≠ Outcome.ok →
        (swarmLoop env addrs left i).2 = o) := by
  intro left
  induction left with
  | zero =>
    intro i
    exact ⟨fun ev hev => by simp [swarmLoop] at hev, fun j o hev => by simp [swarmLoop] at hev⟩
  | succ k ih =>
    intro i
    obtain ⟨ih1, ih2⟩ := ih (i + 1)
    simp only [swarmLoop]
    cases hget : addrs.get? i with
    | none => exact ⟨fun ev hev => by simp at hev, fun j o hev => by simp at hev⟩
    | some addr =>
      simp only
      cases hp : (waitOnSwarmPeers (env.httpGet i) addr).1 with
      | ok =>
        simp only
        constructor
        · intro ev hev
          rcases List.mem_cons.1 hev with h | h
          · rw [h]; rfl
          · exact ih1 ev h
        · intro j o hev hne
          rcases List.mem_cons.1 hev with h | h
          · injection h with _ h2; exact absurd h2 hne
          · exact ih2 j o h hne
      | error e =>
        simp only
        constructor
        · intro ev hev
          rw [List.mem_singleton.1 hev]; rfl
        · intro j o hev _
          have := List.mem_singleton.1 hev
          injection this with _ h2
          exact h2.symm
      | panic why =>
        simp only
        constructor
        · intro ev hev
          rw [List.mem_singleton.1 hev]; rfl
        · intro j o hev _
          have := List.mem_singleton.1 hev
          injection this with _ h2
          exact h2.symm
      | hang =>
        simp only
        constructor
        · intro ev hev
          rw [List.mem_singleton.1 hev]; rfl
        · intro j o hev _
          have := List.mem_singleton.1 hev
          injection this with _ h2
          exact h2.symm

/-- How `IpfsStart` is assembled from its two loops. -/
theorem IpfsStart_run (env : Env) (waitall : Bool) (fs : Testbed) (n : Nat)
    (hn : GetNumNodes fs = some n) :
    ∃ S, (IpfsStart env waitall fs).trace = (startLoop env waitall n 0 fs []).trace ++ S ∧
      (∀ ev ∈ S, ev.isSwarmProbe = true) ∧
      (∀ j o, StartEvent.swarmProbe j o ∈ S → o ≠ Outcome.ok →
        (IpfsStart env waitall fs).outcome = o) ∧
      (∀ o, (startLoop env waitall n 0 fs []).stop = some o →
        S = [] ∧ (IpfsStart env waitall fs).outcome = o) ∧
      ((startLoop env waitall n 0 fs []).stop = none → waitall = true →
        S = (swarmLoop env (startLoop env waitall n 0 fs []).addrs n 0).1 ∧
        (IpfsStart env waitall fs).outcome
          = (swarmLoop env (startLoop env waitall n 0 fs []).addrs n 0).2) := by
  unfold IpfsStart
  rw [hn]
  simp only
  cases hstop : (startLoop env waitall n 0 fs []).stop with
  | some o =>
    refine ⟨[], by simp, by simp, by simp, ?_, ?_⟩
    · intro o2 h; injection h with h; exact ⟨rfl, h⟩
    · intro h; cases h
  | none =>
    cases hw : waitall with
    | false =>
      refine ⟨[], by simp, by simp, by simp, ?_, ?_⟩
      · intro o2 h; cases h
      · intro _ h; cases h
    | true =>
      obtain ⟨s1, s2⟩ := swarmLoop_trace env (startLoop env true n 0 fs []).addrs n 0
      refine ⟨(swarmLoop env (startLoop env true n 0 fs []).addrs n 0).1, by simp, s1, ?_, ?_, ?_⟩
      · intro j o hev hne
        simpa using s2 j o hev hne
      · intro o2 h; cases h
      · intro _ _; exact ⟨rfl, by simp⟩

/-- C3: in every run of `IpfsStart`, for either value of `waitall`, the launched
nodes are `0, 1, ..., k-1` in this order; every launch of a node `j >= 1` comes
after a successful identity probe of node 0; and when the probe of node 0 does
not succeed, `IpfsStart` ends with the outcome of that probe (its error) and no
node other than node 0 is launched. -/
theorem start_waits_for_node_zero (env : Env) (waitall : Bool) (fs : Testbed) :
    (∃ k, launchedOf (IpfsStart env waitall fs).trace = List.range k) ∧
    (∀ pre post j pid, (IpfsStart env waitall fs).trace = pre ++ .launched j pid :: post →
      1 ≤ j → StartEvent.apiProbe 0 Outcome.ok ∈ pre) ∧
    (∀ o, StartEvent.apiProbe 0 o ∈ (IpfsStart env waitall fs).trace → o ≠ Outcome.ok →
      (IpfsStart env waitall fs).outcome = o ∧
      ∀ j pid, StartEvent.launched j pid ∈ (IpfsStart env waitall fs).trace → j = 0) := by
  cases hn : GetNumNodes fs with
  | none =>
    have ht : (IpfsStart env waitall fs).trace = [] := by unfold IpfsStart; rw [hn]
    rw [ht]
    refine ⟨⟨0, rfl⟩, ?_, ?_⟩
    · intro pre post j pid h; simp at h
    · intro o h; simp at h
  | some n =>
    obtain ⟨S, hT, hS, _, hstopS, _⟩ := IpfsStart_run env waitall fs n hn
    obtain ⟨_, ⟨m, hm⟩, _, _⟩ := startLoop_trace env waitall n 0 fs []
    have hlS : launchedOf S = [] := launchedOf_swarm S hS
    refine ⟨⟨m, ?_⟩, ?_, ?_⟩
    · rw [hT, launchedOf_append, hm, hlS, List.append_nil, List.range_eq_range']
    · cases n with
      | zero =>
        intro pre post j pid h _
        have hmem : StartEvent.launched j pid ∈ (IpfsStart env waitall fs).trace := by
          rw [h]; simp
        rw [hT] at hmem
        simp only [startLoop, List.nil_append] at hmem
        have := hS _ hmem
        cases this
      | succ k =>
        obtain ⟨_, hl2, hnode, hprobe⟩ := startNode_trace env waitall 0 fs []
        obtain ⟨_, hc⟩ := startNode_cases env waitall 0 fs []
        intro pre post j pid h hj
        cases hstop : (startNode env waitall 0 fs []).stop with
        | some o =>
          have hloop := startLoop_stop env waitall k 0 fs [] o hstop
          obtain ⟨hSnil, _⟩ := hstopS o (by rw [hloop]; exact hstop)
          have hmem : StartEvent.launched j pid ∈ (IpfsStart env waitall fs).trace := by
            rw [h]; simp
          rw [hT, hSnil, List.append_nil, hloop] at hmem
          have := (hnode _ hmem).1
          simp only [StartEvent.node] at this
          omega
        | none =>
          rcases hc with ⟨o, hs, _⟩ | ⟨_, o, hs, _⟩ | ⟨_, _, _, hno, _⟩ |
            ⟨pid0, cfg, addr, _, _, _, _, ht, hs⟩
          · rw [hstop] at hs; cases hs
          · rw [hstop] at hs; cases hs
          · exact absurd (Or.inl rfl) hno
          · have hok : (waitOnAPI (env.httpGet 0) cfg.Identity.PeerID addr).1 = Outcome.ok := by
              by_contra hne
              rw [hstop, if_neg hne] at hs
              cases hs
            rw [hok] at ht
            rw [hT, startLoop_continue env waitall k 0 fs [] hstop, ht] at h
            simp only [List.cons_append, List.nil_append] at h
            cases pre with
            | nil =>
              simp only [List.nil_append] at h
              injection h with h1 _
              injection h1 with h2 _
              omega
            | cons a pre1 =>
              cases pre1 with
              | nil =>
                simp only [List.cons_append, List.nil_append] at h
                injection h with _ h1
                injection h1 with h2 _
                cases h2
              | cons b pre2 =>
                simp only [List.cons_append] at h
                injection h with _ h1
                injection h1 with h2 _
                rw [← h2]
                simp
    · intro o hev hne
      cases n with
      | zero =>
        rw [hT] at hev
        simp only [startLoop, List.nil_append] at hev
        have := hS _ hev
        cases this
      | succ k =>
        obtain ⟨_, _, hnode, hprobe⟩ := startNode_trace env waitall 0 fs []
        obtain ⟨_, _, inode, _⟩ := startLoop_trace env waitall k 1
          (startNode env waitall 0 fs []).fs (startNode env waitall 0 fs []).addrs
        cases hstop : (startNode env waitall 0 fs []).stop with
        | some o1 =>
          have hloop := startLoop_stop env waitall k 0 fs [] o1 hstop
          obtain ⟨hSnil, hout⟩ := hstopS o1 (by rw [hloop]; exact hstop)
          rw [hT, hSnil, List.append_nil, hloop] at hev ⊢
          have h1 := (hprobe 0 o hev).1 hne
          rw [hstop] at h1
          injection h1 with h1
          refine ⟨by rw [hout, h1], ?_⟩
          intro j pid hl
          exact (hnode _ hl).1
        | none =>
          rw [hT, startLoop_continue env waitall k 0 fs [] hstop] at hev
          simp only at hev
          rcases List.mem_append.1 hev with h | h
          · rcases List.mem_append.1 h with h1 | h1
            · have := (hprobe 0 o h1).1 hne
              rw [hstop] at this; cases this
            · have := (inode _ h1).1
              simp only [StartEvent.node] at this
              omega
          · have := hS _ h
            cases this

/-- C3 (witness): three nodes, no daemon ever answers; only node 0 is launched
and the call returns the timeout of its probe. -/
theorem start_waits_for_node_zero_witness :
    (IpfsStart okEnv false (testbedOf ["QmA", "QmB", "QmC"])).outcome
        = Outcome.error (.apiTimeout "127.0.0.1:5001") ∧
      ∀ j pid, StartEvent.launched j pid
        ∈ (IpfsStart okEnv false (testbedOf ["QmA", "QmB", "QmC"])).trace → j = 0 :=
  (start_waits_for_node_zero okEnv false (testbedOf ["QmA", "QmB", "QmC"])).2.2
    (Outcome.error (.apiTimeout "127.0.0.1:5001")) (by decide) (by decide)

/-- With `waitall`, a launch loop that runs to its end has probed every node of
its range successfully and collected the addresses in index order. -/
theorem startLoop_all_ready (env : Env) :
    ∀ (left i : Nat) (fs : Testbed) (addrs : List String),
      (startLoop env true left i fs addrs).stop = none →
      ∃ new : List String, (startLoop env true left i fs addrs).addrs = addrs ++ new ∧
        new.length = left ∧
        ∀ j, i ≤ j → j < i + left →
          ∃ cfg addr, loadConfig fs j = .ok cfg ∧ env.dialArgs cfg.Addresses.API = .addr addr ∧
            (waitOnAPI (env.httpGet j) cfg.Identity.PeerID addr).1 = Outcome.ok ∧
            new.get? (j - i) = some addr ∧
            StartEvent.apiProbe j Outcome.ok ∈ (startLoop env true left i fs addrs).trace := by
  intro left
  induction left with
  | zero =>
    intro i fs addrs _
    exact ⟨[], by simp [startLoop], rfl, fun j h1 h2 => by omega⟩
  | succ k ih =>
    intro i fs addrs h
    obtain ⟨hcfg, hc⟩ := startNode_cases env true i fs addrs
    cases hstop : (startNode env true i fs addrs).stop with
    | some o =>
      rw [startLoop_stop env true k i fs addrs o hstop, hstop] at h
      cases h
    | none =>
      rw [startLoop_continue env true k i fs addrs hstop] at h ⊢
      simp only at h ⊢
      rcases hc with ⟨o, hs, _⟩ | ⟨_, o, hs, _⟩ | ⟨_, _, _, hno, _⟩ |
        ⟨pid0, cfg, addr, _, hload, hdial, haddrs, ht, hs⟩
      · rw [hstop] at hs; cases hs
      · rw [hstop] at hs; cases hs
      · exact absurd (Or.inr rfl) hno
      · have hok : (waitOnAPI (env.httpGet i) cfg.Identity.PeerID addr).1 = Outcome.ok := by
          by_contra hne
          rw [hstop, if_neg hne] at hs
          cases hs
        obtain ⟨new1, hnew1, hlen1, hall⟩ := ih (i + 1) _ _ h
        refine ⟨addr :: new1, ?_, by simp [hlen1], ?_⟩
        · rw [hnew1, haddrs]; simp
        · intro j h1 h2
          by_cases hji : j = i
          · subst hji
            refine ⟨cfg, addr, hload, hdial, hok, by simp, ?_⟩
            rw [ht, hok]; simp
          · obtain ⟨cfgj, addrj, hlj, hdj, hpj, hgj, hej⟩ := hall j (by omega) (by omega)
            refine ⟨cfgj, addrj, by rw [← hcfg j]; exact hlj, hdj, hpj, ?_,
              List.mem_append_right _ hej⟩
            have hsub : j - i = (j - (i + 1)) + 1 := by omega
            rw [hsub, List.get?_cons_succ]
            exact hgj

/-- A second loop that ends without error has seen every node of its range
report a non-empty peer list. -/
theorem swarmLoop_all_ok (env : Env) (addrs : List String) :
    ∀ (left i : Nat), (swarmLoop env addrs left i).2 = Outcome.ok →
      ∀ j, i ≤ j → j < i + left →
        ∃ addr, addrs.get? j = some addr ∧
          (waitOnSwarmPeers (env.httpGet j) addr).1 = Outcome.ok ∧
          StartEvent.swarmProbe j Outcome.ok ∈ (swarmLoop env addrs left i).1 := by
  intro left
  induction left with
  | zero => intro i _ j h1 h2; omega
  | succ k ih =>
    intro i h j h1 h2
    simp only [swarmLoop] at h ⊢
    cases hget : addrs.get? i with
    | none => rw [hget] at h; cases h
    | some addr =>
      rw [hget] at h
      simp only at h ⊢
      cases hp : (waitOnSwarmPeers (env.httpGet i) addr).1 with
      | ok =>
        rw [hp] at h
        simp only at h ⊢
        by_cases hji : j = i
        · subst hji
          exact ⟨addr, hget, hp, by simp⟩
        · obtain ⟨a, ha1, ha2, ha3⟩ := ih (i + 1) h j (by omega) (by omega)
          exact ⟨a, ha1, ha2, List.mem_cons_of_mem _ ha3⟩
      | error e => rw [hp] at h; cases h
      | panic why => rw [hp] at h; cases h
      | hang => rw [hp] at h; cases h

/-- With `waitall`, the launch loop never stops with the outcome `ok`: it stops
only on an error or a panic. -/
theorem startLoop_stop_ne_ok (env : Env) :
    ∀ (left i : Nat) (fs : Testbed) (addrs : List String),
      (startLoop env true left i fs addrs).stop ≠ some Outcome.ok := by
  intro left
  induction left with
  | zero => intro i fs addrs h; simp [startLoop] at h
  | succ k ih =>
    intro i fs addrs h
    obtain ⟨_, hc⟩ := startNode_cases env true i fs addrs
    cases hs1 : (startNode env true i fs addrs).stop with
    | some o =>
      rw [startLoop_stop env true k i fs addrs o hs1, hs1] at h
      injection h with h; subst h
      unfold startNode at hs1
      cases h1 : env.createStdoutErr i with
      | some e => rw [h1] at hs1; cases hs1
      | none =>
        rw [h1] at hs1; simp only at hs1
        cases h2 : env.createStderrErr i with
        | some e => rw [h2] at hs1; cases hs1
        | none =>
          rw [h2] at hs1; simp only at hs1
          cases h3 : env.startCmd i with
          | error e => rw [h3] at hs1; cases hs1
          | ok pid =>
            rw [h3] at hs1; simp only at hs1
            cases h4 : env.writePidErr i with
            | some e => rw [h4] at hs1; cases hs1
            | none =>
              rw [h4] at hs1; simp only [or_true, if_true] at hs1
              unfold awaitNode at hs1
              split at hs1
              · cases hs1
              · split at hs1
                · cases hs1
                · cases hs1
                · split at hs1
                  · cases hs1
                  · rename_i hne
                    injection hs1 with hs1
                    exact hne hs1
    | none =>
      rw [startLoop_continue env true k i fs addrs hs1] at h
      exact ih _ _ _ h

/-- C4: `IpfsStart` with `waitall` over `n` provisioned nodes returns success
only if, for every node `i < n`, the identity probe of node `i` succeeded and its
peer-list probe saw a non-empty peer list in one of its polls; and a probe of any
node that ends otherwise (an error, a timeout) is the outcome of the whole call. -/
theorem start_waitall_success (env : Env) (fs : Testbed) (n : Nat)
    (hn : GetNumNodes fs = some n) :
    ((IpfsStart env true fs).outcome = Outcome.ok → ∀ i, i < n →
      StartEvent.apiProbe i Outcome.ok ∈ (IpfsStart env true fs).trace ∧
      StartEvent.swarmProbe i Outcome.ok ∈ (IpfsStart env true fs).trace ∧
      ∃ cfg addr, loadConfig fs i = .ok cfg ∧ env.dialArgs cfg.Addresses.API = .addr addr ∧
        (waitOnAPI (env.httpGet i) cfg.Identity.PeerID addr).1 = Outcome.ok ∧
        (waitOnSwarmPeers (env.httpGet i) addr).1 = Outcome.ok ∧
        ∃ k out peers, k < 50 ∧
          env.httpGet i ("http://" ++ addr ++ "/api/v0/swarm/peers") k = .response (.ok out) ∧
          out "Strings" = some (.arr peers) ∧ peers ≠ []) ∧
    (∀ i o, (StartEvent.apiProbe i o ∈ (IpfsStart env true fs).trace ∨
        StartEvent.swarmProbe i o ∈ (IpfsStart env true fs).trace) → o ≠ Outcome.ok →
      (IpfsStart env true fs).outcome = o) := by
  obtain ⟨S, hT, hS, hSout, hstopS, hcont⟩ := IpfsStart_run env true fs n hn
  obtain ⟨_, _, lnode, lprobe⟩ := startLoop_trace env true n 0 fs []
  constructor
  · intro hok i hi
    cases hstop : (startLoop env true n 0 fs []).stop with
    | some o =>
      obtain ⟨_, hout⟩ := hstopS o hstop
      have ho : o = Outcome.ok := by rw [← hout, hok]
      subst ho
      exact absurd hstop (startLoop_stop_ne_ok env n 0 fs [])
    | none =>
      obtain ⟨hSeq, hout⟩ := hcont hstop rfl
      obtain ⟨new, hnew, _, hall⟩ := startLoop_all_ready env n 0 fs [] hstop
      obtain ⟨cfg, addr, hload, hdial, hprobe, hget, hev⟩ := hall i (Nat.zero_le _) (by omega)
      rw [hout] at hok
      obtain ⟨a, ha1, ha2, ha3⟩ := swarmLoop_all_ok env _ n 0 hok i (Nat.zero_le _) (by omega)
      rw [hnew, List.nil_append] at ha1
      rw [Nat.sub_zero, ha1] at hget
      injection hget with hget
      subst hget
      refine ⟨?_, ?_, cfg, a, hload, hdial, hprobe, ha2, waitOnSwarmPeers_ok _ _ ha2⟩
      · rw [hT]; exact List.mem_append_left _ hev
      · rw [hT, hSeq]; exact List.mem_append_right _ ha3
  · intro i o hev hne
    cases hstop : (startLoop env true n 0 fs []).stop with
    | some o1 =>
      obtain ⟨hSnil, hout⟩ := hstopS o1 hstop
      rw [hT, hSnil, List.append_nil] at hev
      rcases hev with h | h
      · have := lprobe i o h hne
        rw [hstop] at this
        injection this with this
        rw [hout, this]
      · have := (lnode _ h).2
        cases this
    | none =>
      rw [hT] at hev
      rcases hev with h | h
      · rcases List.mem_append.1 h with h1 | h1
        · have := lprobe i o h1 hne
          rw [hstop] at this; cases this
        · have := hS _ h1
          cases this
      · rcases List.mem_append.1 h with h1 | h1
        · have := (lnode _ h1).2
          cases this
        · exact hSout i o h1 hne

/-- C4 (witness): two healthy nodes; the call succeeds and both probes of node 1
succeeded. -/
theorem start_waitall_success_witness :
    GetNumNodes twoNodeTestbed = some 2 ∧
    (IpfsStart healthyEnv true twoNodeTestbed).outcome = Outcome.ok ∧
    StartEvent.apiProbe 1 Outcome.ok ∈ (IpfsStart healthyEnv true twoNodeTestbed).trace ∧
    StartEvent.swarmProbe 1 Outcome.ok ∈ (IpfsStart healthyEnv true twoNodeTestbed).trace :=
  have h := (start_waitall_success healthyEnv twoNodeTestbed 2 (by decide)).1 (by decide) 1
    (by decide)
  ⟨by decide, by decide, h.1, h.2.1⟩

/-- C2: `swarmAddrForPeer i` is `/ip4/0.0.0.0/tcp/` followed by the decimal of the
Go sum `PortStart+i`, `apiAddrForPeer i` is `/ip4/127.0.0.1/tcp/` followed by the
decimal of `PortStart+1000+i`; these sums are the exact integers whenever
`PortStart+1000+i` fits an `int`; and for every cluster size `N < 1000` the `2N`
ports of the nodes `0..N-1` are pairwise different. -/
theorem address_derivation (c : initCfg) (i : Nat) :
    c.swarmAddrForPeer i = "/ip4/0.0.0.0/tcp/" ++ fmtInt (addInt c.PortStart i) ∧
    c.apiAddrForPeer i = "/ip4/127.0.0.1/tcp/" ++ fmtInt (addInt (addInt c.PortStart 1000) i) ∧
    (isGoInt c.PortStart → isGoInt (c.PortStart + 1000 + i) →
      addInt c.PortStart i = c.PortStart + i ∧
      addInt (addInt c.PortStart 1000) i = c.PortStart + 1000 + i) ∧
    (∀ N a b : Nat, N < 1000 → a < N → b < N →
      c.swarmPortForPeer a ≠ c.apiPortForPeer b ∧
      (a ≠ b → c.swarmPortForPeer a ≠ c.swarmPortForPeer b ∧
        c.apiPortForPeer a ≠ c.apiPortForPeer b)) := by
  refine ⟨rfl, rfl, ?_, fun N a b hN ha hb => ports_distinct c N a b hN ha hb⟩
  intro h1 h2
  unfold isGoInt at h1 h2
  unfold addInt wrapInt
  constructor <;> omega

/-- C2 (witness): base port 4002, node 1 listens on 4003 and serves its API on 5003. -/
theorem address_derivation_witness :
    (addInt starCfg3.PortStart (1 : Nat) = starCfg3.PortStart + (1 : Nat) ∧
      addInt (addInt starCfg3.PortStart 1000) (1 : Nat) = starCfg3.PortStart + 1000 + (1 : Nat)) ∧
    starCfg3.swarmAddrForPeer 1 = "/ip4/0.0.0.0/tcp/4003" ∧
    starCfg3.apiAddrForPeer 1 = "/ip4/127.0.0.1/tcp/5003" :=
  ⟨(address_derivation starCfg3 1).2.2.1 (by decide) (by decide), by decide, by decide⟩

/-- C5 (witness): three nodes, both strategies, applied twice. -/
theorem topology_idempotent_witness :
    (starBootstrap okEnv starCfg3 (testbedOf ["QmA", "QmB", "QmC"])).2 = none ∧
    starBootstrap okEnv starCfg3 (starBootstrap okEnv starCfg3 (testbedOf ["QmA", "QmB", "QmC"])).1
      = ((starBootstrap okEnv starCfg3 (testbedOf ["QmA", "QmB", "QmC"])).1, none) ∧
    (clearBootstrapping okEnv noneCfg3 (testbedOf ["QmA", "QmB", "QmC"])).2 = none ∧
    clearBootstrapping okEnv noneCfg3
        (clearBootstrapping okEnv noneCfg3 (testbedOf ["QmA", "QmB", "QmC"])).1
      = ((clearBootstrapping okEnv noneCfg3 (testbedOf ["QmA", "QmB", "QmC"])).1, none) :=
  ⟨by decide,
    (topology_idempotent okEnv starCfg3 (testbedOf ["QmA", "QmB", "QmC"])).1 (by decide),
    by decide,
    (topology_idempotent okEnv noneCfg3 (testbedOf ["QmA", "QmB", "QmC"])).2 (by decide)⟩

end Iptb
